import Mathlib

/-!
Verification of the Docker registry client
(`src/slave/containerizer/mesos/provisioner/docker/registry_client.cpp`).

The development embeds the client shallowly: strings are Lean `String`s
(lists of characters), the stout string helpers (`strings::tokenize`,
`strings::contains`) are re-implemented character by character, HTTP
responses are explicit values, the scripted server is a list of responses
consumed one per issued GET, and every side effect (HTTP GET, token-manager
call, directory creation, file write) is logged in an event trace returned
beside the result.  External collaborators that are not part of the
translated source (the stout JSON parser, the token manager) are passed in
as function parameters.  C++ behavior that is undefined (out-of-bounds
vector indexing, `as<T>` on a JSON value of the wrong type) is made total
with explicit `abort`-style constructors.
-/

namespace Docker

/-- stout `strings::tokenize(s, delims)` on character lists: splits `l` on
any character of `delims` and returns the maximal non-empty runs of
non-delimiter characters, in order.  `acc` is the (reversed) run being
built. -/
def tokenizeAux (delims : List Char) : List Char → List Char → List (List Char)
  | [], acc => if acc = [] then [] else [acc.reverse]
  | c :: cs, acc =>
    if c ∈ delims then
      if acc = [] then tokenizeAux delims cs []
      else acc.reverse :: tokenizeAux delims cs []
    else tokenizeAux delims cs (c :: acc)

/-- stout `strings::tokenize` at the string level. -/
def tokenizeStr (s : String) (delims : String) : List String :=
  (tokenizeAux delims.data s.data []).map (fun l => String.mk l)

/-- `p` is a prefix of `l` (character lists). -/
def isPrefixOfChars : List Char → List Char → Bool
  | [], _ => true
  | _ :: _, [] => false
  | a :: as, b :: bs => a = b && isPrefixOfChars as bs

/-- `sub` occurs somewhere inside `l` (character lists). -/
def containsSub (sub : List Char) : List Char → Bool
  | [] => isPrefixOfChars sub []
  | c :: cs => isPrefixOfChars sub (c :: cs) || containsSub sub cs

/-- stout `strings::contains(s, sub)`: substring search. -/
def strContains (s : String) (sub : String) : Bool :=
  containsSub sub.data s.data

/-- No character of `l` belongs to `delims`. -/
def avoids (l : List Char) (delims : List Char) : Prop :=
  ∀ c ∈ l, c ∉ delims

instance avoidsDecidable (l delims : List Char) : Decidable (avoids l delims) :=
  inferInstanceAs (Decidable (∀ c ∈ l, c ∉ delims))

theorem avoids_subset {l D D' : List Char} (h : avoids l D)
    (hs : ∀ c, c ∈ D' → c ∈ D) : avoids l D' :=
  fun c hc hmem => h c hc (hs c hmem)

theorem avoids_append {a b delims : List Char} (ha : avoids a delims)
    (hb : avoids b delims) : avoids (a ++ b) delims := by
  intro c hc
  rcases List.mem_append.mp hc with h | h
  · exact ha c h
  · exact hb c h

theorem avoids_cons {c : Char} {b delims : List Char} (hc : c ∉ delims)
    (hb : avoids b delims) : avoids (c :: b) delims := by
  intro x hx
  rcases List.mem_cons.mp hx with h | h
  · exact h ▸ hc
  · exact hb x h

/-- Running over a delimiter-free segment just accumulates it. -/
theorem tokenizeAux_run (delims : List Char) :
    ∀ (a cs acc : List Char), avoids a delims →
      tokenizeAux delims (a ++ cs) acc = tokenizeAux delims cs (a.reverse ++ acc) := by
  intro a
  induction a with
  | nil => intro cs acc _; simp
  | cons x a' ih =>
    intro cs acc h
    have hx : x ∉ delims := h x (List.mem_cons_self x a')
    have h' : avoids a' delims := fun c hc => h c (List.mem_cons_of_mem x hc)
    have step : tokenizeAux delims ((x :: a') ++ cs) acc
        = tokenizeAux delims (a' ++ cs) (x :: acc) := by
      simp [tokenizeAux, hx]
    rw [step, ih cs (x :: acc) h']
    simp

/-- A delimiter-free non-empty list is one whole token. -/
theorem tokenizeAux_all (delims : List Char) (a : List Char)
    (h : avoids a delims) (hne : a ≠ []) :
    tokenizeAux delims a [] = [a] := by
  have := tokenizeAux_run delims a [] [] h
  simp only [List.append_nil] at this
  rw [this]
  simp [tokenizeAux, hne]

/-- Splitting at the first delimiter after a delimiter-free non-empty run. -/
theorem tokenizeAux_split (delims : List Char) (a : List Char) (d : Char)
    (b : List Char) (h : avoids a delims) (hne : a ≠ []) (hd : d ∈ delims) :
    tokenizeAux delims (a ++ d :: b) [] = a :: tokenizeAux delims b [] := by
  rw [tokenizeAux_run delims a (d :: b) [] h]
  simp only [List.append_nil, tokenizeAux, if_pos hd]
  have : a.reverse ≠ [] := by
    intro hrev
    exact hne (by simpa using congrArg List.reverse hrev)
  simp [this]

/-- A leading delimiter is skipped. -/
theorem tokenizeAux_delim_head (delims : List Char) (d : Char) (b : List Char)
    (hd : d ∈ delims) :
    tokenizeAux delims (d :: b) [] = tokenizeAux delims b [] := by
  simp [tokenizeAux, if_pos hd]

theorem strDataAppend (s t : String) : (s ++ t).data = s.data ++ t.data := rfl

theorem strMkData (s : String) : String.mk s.data = s := rfl

/-- libprocess `http::URL` restricted to the fields the client uses:
scheme, domain, optional port, path. -/
structure URL where
  scheme : String
  domain : String
  port : Option Nat
  path : String
  deriving DecidableEq, Repr

/-- Modelled from the spec: stout `numify<uint16_t>` as the spec describes
it ("decimal port"; "a port that fails to parse as an unsigned 16-bit
integer yields InvalidRedirect") — the decimal value of a non-empty digit
string when it fits in 16 bits, otherwise failure.  stout itself is not
part of the repository's files. -/
def numifyU16 (s : String) : Option Nat :=
  if s.data ≠ [] ∧ s.data.all Char.isDigit then
    let n := s.data.foldl (fun acc c => acc * 10 + (c.toNat - 48)) 0
    if n < 65536 then some n else none
  else none

/-- Result of the redirect resolver.  `oob` marks the source reading
`components[0]` on an empty vector — undefined behavior in C++. -/
inductive ToURLResult where
  | ok (u : URL)
  | err (msg : String)
  | oob
  deriving DecidableEq, Repr

/-- The `toURL` lambda of `RegistryClientProcess::doHttpGet`
(registry_client.cpp lines 385-427): requires `strings::contains(urlString,
"https://")`, drops the first 8 characters, tokenizes the remainder on `/`
(reading `components[0]` unconditionally), takes the path as the remainder
after the first component, tokenizes the component on `:` and parses a port
only when that yields exactly two tokens. -/
def toURL (urlString : String) : ToURLResult :=
  if strContains urlString "https://" = false then
    .err ("Failed to find expected token 'https://' in redirect url")
  else
    let schemeSuffix : List Char := urlString.data.drop 8
    let components : List (List Char) := tokenizeAux ['/'] schemeSuffix []
    match components with
    | [] => .oob
    | c0 :: _ =>
      let path : String := String.mk (schemeSuffix.drop c0.length)
      let addrComponents : List (List Char) := tokenizeAux [':'] c0 []
      match addrComponents with
      | [a, b] =>
        match numifyU16 (String.mk b) with
        | none => .err ("Failed to parse location: " ++ urlString ++ " for port.")
        | some p => .ok ⟨"https", String.mk a, some p, path⟩
      | _ => .ok ⟨"https", String.mk c0, some 443, path⟩

theorem isPrefixOfChars_refl_append : ∀ (p t : List Char),
    isPrefixOfChars p (p ++ t) = true := by
  intro p
  induction p with
  | nil => intro t; rfl
  | cons c cs ih => intro t; simp [isPrefixOfChars, ih t]

theorem containsSub_of_prefix (p t : List Char) :
    containsSub p (p ++ t) = true := by
  cases hp : p with
  | nil => cases t <;> simp [containsSub, isPrefixOfChars]
  | cons c cs =>
    have h : isPrefixOfChars (c :: cs) (c :: (cs ++ t)) = true :=
      isPrefixOfChars_refl_append (c :: cs) t
    simp [containsSub, h]

theorem strContains_of_prefix (rest : String) (p : String) :
    strContains (p ++ rest) p = true := by
  simpa [strContains, strDataAppend] using containsSub_of_prefix p.data rest.data

theorem drop_eight (x : List Char) :
    List.drop 8 (['h', 't', 't', 'p', 's', ':', '/', '/'] ++ x) = x := rfl

/-- `toURL` on `https://<host>/<rest>` with a clean non-empty host and no
explicit port: domain is the host, port defaults to 443, path is
`/<rest>`. -/
theorem toURL_no_port (host rest : String) (hne : host.data ≠ [])
    (hav : avoids host.data ['/', ':']) :
    toURL ("https://" ++ host ++ "/" ++ rest)
      = .ok ⟨"https", host, some 443, "/" ++ rest⟩ := by
  have hslash : ("/" : String).data = ['/'] := rfl
  have hdata : ("https://" ++ host ++ "/" ++ rest).data
      = "https://".data ++ (host.data ++ '/' :: rest.data) := by
    simp [strDataAppend, hslash]
  have hcontains : strContains ("https://" ++ host ++ "/" ++ rest) "https://" = true := by
    unfold strContains
    rw [hdata]
    exact containsSub_of_prefix _ _
  have havSlash : avoids host.data ['/'] := by
    intro c hc hmem
    exact hav c hc (by simpa using Or.inl (by simpa using hmem))
  have havColon : avoids host.data [':'] := by
    intro c hc hmem
    exact hav c hc (by simpa using Or.inr (by simpa using hmem))
  unfold toURL
  rw [hcontains]
  simp only [Bool.true_eq_false, if_false, hdata, drop_eight]
  rw [tokenizeAux_split ['/'] host.data '/' rest.data havSlash hne (by simp)]
  simp only
  rw [tokenizeAux_all [':'] host.data havColon hne]
  have hdrop : (host.data ++ '/' :: rest.data).drop host.data.length
      = '/' :: rest.data := List.drop_left _ _
  rw [hdrop]
  rfl

/-- `toURL` on `https://<host>:<port>/<rest>` with clean non-empty host and
port strings: the authority splits into exactly two `:`-tokens and the port
text goes through `numify<uint16_t>`. -/
theorem toURL_with_port (host portStr rest : String) (hne : host.data ≠ [])
    (hav : avoids host.data ['/', ':']) (pne : portStr.data ≠ [])
    (pav : avoids portStr.data ['/', ':']) :
    toURL ("https://" ++ host ++ ":" ++ portStr ++ "/" ++ rest)
      = match numifyU16 portStr with
        | some p => .ok ⟨"https", host, some p, "/" ++ rest⟩
        | none => .err ("Failed to parse location: "
            ++ ("https://" ++ host ++ ":" ++ portStr ++ "/" ++ rest) ++ " for port.") := by
  have hslash : ("/" : String).data = ['/'] := rfl
  have hcolon : (":" : String).data = [':'] := rfl
  have hdata : ("https://" ++ host ++ ":" ++ portStr ++ "/" ++ rest).data
      = "https://".data ++ ((host.data ++ ':' :: portStr.data) ++ '/' :: rest.data) := by
    simp [strDataAppend, hslash, hcolon]
  have hcontains : strContains ("https://" ++ host ++ ":" ++ portStr ++ "/" ++ rest)
      "https://" = true := by
    unfold strContains
    rw [hdata]
    exact containsSub_of_prefix _ _
  have havSlash : avoids (host.data ++ ':' :: portStr.data) ['/'] := by
    intro c hc hmem
    have hcs : c = '/' := by simpa using hmem
    rcases List.mem_append.mp hc with h | h
    · exact hav c h (by simp [hcs])
    · rcases List.mem_cons.mp h with h | h
      · exact absurd (hcs ▸ h) (by decide)
      · exact pav c h (by simp [hcs])
  have havColon : avoids host.data [':'] := by
    intro c hc hmem
    exact hav c hc (by simpa using Or.inr (by simpa using hmem))
  have pavColon : avoids portStr.data [':'] := by
    intro c hc hmem
    exact pav c hc (by simpa using Or.inr (by simpa using hmem))
  have hane : (host.data ++ ':' :: portStr.data) ≠ [] := by
    intro h
    exact hne (List.append_eq_nil.mp h).1
  unfold toURL
  rw [hcontains]
  simp only [Bool.true_eq_false, if_false, hdata, drop_eight]
  rw [tokenizeAux_split ['/'] (host.data ++ ':' :: portStr.data) '/' rest.data
      havSlash hane (by simp)]
  simp only
  rw [tokenizeAux_split [':'] host.data ':' portStr.data havColon hne (by simp)]
  rw [tokenizeAux_all [':'] portStr.data pavColon pne]
  have hdrop : ((host.data ++ ':' :: portStr.data) ++ '/' :: rest.data).drop
      (host.data ++ ':' :: portStr.data).length = '/' :: rest.data := List.drop_left _ _
  rw [hdrop]
  cases hnum : numifyU16 (String.mk portStr.data) <;> simp_all [strMkData]
  rfl

/-- `toURL` on `https://<h1>:<h2>:<h3>/<rest>`: the authority tokenizes into
three `:`-tokens, not two, so the source keeps the whole authority as the
domain and the default port 443. -/
theorem toURL_multi_colon (h1 h2 h3 rest : String)
    (hne1 : h1.data ≠ []) (hav1 : avoids h1.data ['/', ':'])
    (hne2 : h2.data ≠ []) (hav2 : avoids h2.data ['/', ':'])
    (hne3 : h3.data ≠ []) (hav3 : avoids h3.data ['/', ':']) :
    toURL ("https://" ++ h1 ++ ":" ++ h2 ++ ":" ++ h3 ++ "/" ++ rest)
      = .ok ⟨"https", h1 ++ ":" ++ h2 ++ ":" ++ h3, some 443, "/" ++ rest⟩ := by
  have hslash : ("/" : String).data = ['/'] := rfl
  have hcolon : (":" : String).data = [':'] := rfl
  have avoidsColon : ∀ l : List Char, avoids l ['/', ':'] → avoids l [':'] := by
    intro l h c hc hmem
    exact h c hc (by simpa using Or.inr (by simpa using hmem))
  have hdata : ("https://" ++ h1 ++ ":" ++ h2 ++ ":" ++ h3 ++ "/" ++ rest).data
      = "https://".data
        ++ ((h1.data ++ ':' :: (h2.data ++ ':' :: h3.data)) ++ '/' :: rest.data) := by
    simp [strDataAppend, hslash, hcolon]
  have hcontains :
      strContains ("https://" ++ h1 ++ ":" ++ h2 ++ ":" ++ h3 ++ "/" ++ rest)
        "https://" = true := by
    unfold strContains
    rw [hdata]
    exact containsSub_of_prefix _ _
  have havSlash : avoids (h1.data ++ ':' :: (h2.data ++ ':' :: h3.data)) ['/'] := by
    intro c hc hmem
    have hcs : c = '/' := by simpa using hmem
    rcases List.mem_append.mp hc with h | h
    · exact hav1 c h (by simp [hcs])
    · rcases List.mem_cons.mp h with h | h
      · exact absurd (hcs ▸ h) (by decide)
      · rcases List.mem_append.mp h with h | h
        · exact hav2 c h (by simp [hcs])
        · rcases List.mem_cons.mp h with h | h
          · exact absurd (hcs ▸ h) (by decide)
          · exact hav3 c h (by simp [hcs])
  have hane : (h1.data ++ ':' :: (h2.data ++ ':' :: h3.data)) ≠ [] := by
    intro h
    exact hne1 (List.append_eq_nil.mp h).1
  have hdomain : (h1 ++ ":" ++ h2 ++ ":" ++ h3).data
      = h1.data ++ ':' :: (h2.data ++ ':' :: h3.data) := by
    simp [strDataAppend, hcolon]
  unfold toURL
  rw [hcontains]
  simp only [Bool.true_eq_false, if_false, hdata, drop_eight]
  rw [tokenizeAux_split ['/'] (h1.data ++ ':' :: (h2.data ++ ':' :: h3.data)) '/'
      rest.data havSlash hane (by simp)]
  simp only
  rw [tokenizeAux_split [':'] h1.data ':' (h2.data ++ ':' :: h3.data)
      (avoidsColon h1.data hav1) hne1 (by simp)]
  rw [tokenizeAux_split [':'] h2.data ':' h3.data
      (avoidsColon h2.data hav2) hne2 (by simp)]
  rw [tokenizeAux_all [':'] h3.data (avoidsColon h3.data hav3) hne3]
  have hdrop : ((h1.data ++ ':' :: (h2.data ++ ':' :: h3.data)) ++ '/' :: rest.data).drop
      (h1.data ++ ':' :: (h2.data ++ ':' :: h3.data)).length
      = '/' :: rest.data := List.drop_left _ _
  rw [hdrop]
  rw [← hdomain, strMkData]
  rfl

/-- C10: the claim asserts that whenever a `Location` value passes the
`https://` scheme check, the vector returned by tokenizing the post-scheme
remainder on `/` is non-empty when `components[0]` is read.  It is not so:
the value `https://` itself passes the containment check, its remainder is
empty, `strings::tokenize` returns an empty vector, and the source reads
`components[0]` out of bounds (the `oob` outcome of the total embedding). -/
theorem claim10_components_oob_reachable :
    strContains "https://" "https://" = true
      ∧ toURL "https://" = ToURLResult.oob := by
  constructor
  · decide
  · decide

/-- C4 counterexample: the resolver does not require `https://` as a
prefix — `strings::contains` accepts it anywhere — so `Xhttps://a/b`, which
does not start with the scheme, is accepted instead of rejected with
`InvalidRedirect`; and an authority with two `:` separators is not split
into host and port (the claim would demand `InvalidRedirect` for port text
`1:2`), the source keeps the whole authority and the default port. -/
theorem claim4_counterexample :
    isPrefixOfChars "https://".data "Xhttps://a/b".data = false
      ∧ toURL "Xhttps://a/b" = ToURLResult.ok ⟨"https", "a", some 443, "a/b"⟩
      ∧ toURL "https://h:1:2/p" = ToURLResult.ok ⟨"https", "h:1:2", some 443, "/p"⟩ := by
  refine ⟨by decide, by decide, by decide⟩

/-- C4 (amended): the redirect resolver requires the value to contain the
substring `https://` (rejecting values without it as `InvalidRedirect`) and
takes the remainder after the first 8 characters; it splits the remainder
at the first `/` into authority and path; it splits the authority at `:`
and, exactly when that yields two pieces, uses them as host and decimal
port — failing with `InvalidRedirect` when the port does not parse as an
unsigned 16-bit integer — and otherwise (no `:`, or several) keeps the
whole authority as host with port defaulting to 443; on success it returns
the structured URL (https, host, port, path). -/
theorem claim4_redirect_resolver_amended :
    (∀ s : String, strContains s "https://" = false →
      toURL s = .err "Failed to find expected token 'https://' in redirect url")
    ∧ (∀ host rest : String, host.data ≠ [] → avoids host.data ['/', ':'] →
      toURL ("https://" ++ host ++ "/" ++ rest)
        = .ok ⟨"https", host, some 443, "/" ++ rest⟩)
    ∧ (∀ host portStr rest : String, host.data ≠ [] → avoids host.data ['/', ':'] →
      portStr.data ≠ [] → avoids portStr.data ['/', ':'] →
      ∀ p : Nat, numifyU16 portStr = some p →
      toURL ("https://" ++ host ++ ":" ++ portStr ++ "/" ++ rest)
        = .ok ⟨"https", host, some p, "/" ++ rest⟩)
    ∧ (∀ host portStr rest : String, host.data ≠ [] → avoids host.data ['/', ':'] →
      portStr.data ≠ [] → avoids portStr.data ['/', ':'] →
      numifyU16 portStr = none →
      toURL ("https://" ++ host ++ ":" ++ portStr ++ "/" ++ rest)
        = .err ("Failed to parse location: "
            ++ ("https://" ++ host ++ ":" ++ portStr ++ "/" ++ rest) ++ " for port."))
    ∧ (∀ h1 h2 h3 rest : String, h1.data ≠ [] → avoids h1.data ['/', ':'] →
      h2.data ≠ [] → avoids h2.data ['/', ':'] →
      h3.data ≠ [] → avoids h3.data ['/', ':'] →
      toURL ("https://" ++ h1 ++ ":" ++ h2 ++ ":" ++ h3 ++ "/" ++ rest)
        = .ok ⟨"https", h1 ++ ":" ++ h2 ++ ":" ++ h3, some 443, "/" ++ rest⟩) := by
  refine ⟨?_, ?_, ?_, ?_, ?_⟩
  · intro s hs
    simp [toURL, hs]
  · intro host rest hne hav
    exact toURL_no_port host rest hne hav
  · intro host portStr rest hne hav pne pav p hp
    have := toURL_with_port host portStr rest hne hav pne pav
    rw [hp] at this
    exact this
  · intro host portStr rest hne hav pne pav hp
    have := toURL_with_port host portStr rest hne hav pne pav
    rw [hp] at this
    exact this
  · intro h1 h2 h3 rest hne1 hav1 hne2 hav2 hne3 hav3
    exact toURL_multi_colon h1 h2 h3 rest hne1 hav1 hne2 hav2 hne3 hav3

/-- libprocess `http::Headers`: a map from header name to value, embedded
as an association list whose earliest entry for a key wins (matching the
first-insert-wins behavior of `hashmap::insert`). -/
abbrev Headers := List (String × String)

/-- Map lookup: first entry with the given key. -/
def headerLookup : Headers → String → Option String
  | [], _ => none
  | (k, v) :: rest, key => if k = key then some v else headerLookup rest key

/-- libprocess `http::Response` restricted to what the client reads:
status line, headers, body. -/
structure HttpResponse where
  status : String
  headers : Headers
  body : String
  deriving DecidableEq, Repr

/-- The `foreach`/`addAttribute` loop of
`RegistryClientProcess::getAuthenticationAttributes` (lines 228-252):
each comma-token must split into exactly two pieces on the joint delimiter
set `=` and `"`; the pieces are inserted into the attribute map. -/
def collectAuthParams : List String → Headers → Except String Headers
  | [], acc => .ok acc
  | p :: ps, acc =>
    match tokenizeStr p "=\"" with
    | [k, v] => collectAuthParams ps (acc ++ [(k, v)])
    | _ => .error ("Failed to get authentication attribute from response parameter " ++ p)

/-- `RegistryClientProcess::getAuthenticationAttributes` (lines 211-255):
find the `WWW-Authenticate` header, tokenize it on blanks into exactly two
tokens with the first literally `Bearer`, tokenize the second on commas and
decompose each parameter on the `=`/`"` delimiters. -/
def getAuthenticationAttributes (r : HttpResponse) : Except String Headers :=
  match headerLookup r.headers "WWW-Authenticate" with
  | none => .error "Failed to find WWW-Authenticate header value"
  | some authString =>
    match tokenizeStr authString " " with
    | [t0, t1] =>
      if t0 ≠ "Bearer" then
        .error ("Invalid authentication header value: " ++ authString)
      else
        collectAuthParams (tokenizeStr t1 ",") []
    | _ => .error ("Invalid authentication header value: " ++ authString)

/-- Tokenizing one `key="value"` parameter on the joint `=`/`"` delimiter
set yields exactly the two clean non-empty pieces. -/
theorem tokenizeAux_param (k v : List Char) (hk : k ≠ []) (hv : v ≠ [])
    (ak : avoids k ['=', '"']) (av : avoids v ['=', '"']) :
    tokenizeAux ['=', '"'] (k ++ '=' :: '"' :: (v ++ ['"'])) [] = [k, v] := by
  rw [tokenizeAux_split ['=', '"'] k '=' ('"' :: (v ++ ['"'])) ak hk (by decide)]
  rw [tokenizeAux_delim_head ['=', '"'] '"' (v ++ ['"']) (by decide)]
  rw [tokenizeAux_split ['=', '"'] v '"' [] av hv (by decide)]
  rfl

/-- Character-level delimiter set of the bearer challenge syntax: blank,
comma, equals sign, double quote. -/
def challengeDelims : List Char := [' ', ',', '=', '"']

/-- When the header tokenizes into `Bearer` and a parameter token, the
parser hands the comma-tokens of the parameter token to the attribute
loop. -/
theorem getAuthenticationAttributes_dispatch (r : HttpResponse) (s t1 : String)
    (hlook : headerLookup r.headers "WWW-Authenticate" = some s)
    (htok : tokenizeStr s " " = ["Bearer", t1]) :
    getAuthenticationAttributes r = collectAuthParams (tokenizeStr t1 ",") [] := by
  unfold getAuthenticationAttributes
  rw [hlook]
  show (match tokenizeStr s " " with
    | [t0, t1] =>
      if t0 ≠ "Bearer" then Except.error ("Invalid authentication header value: " ++ s)
      else collectAuthParams (tokenizeStr t1 ",") []
    | _ => Except.error ("Invalid authentication header value: " ++ s))
    = collectAuthParams (tokenizeStr t1 ",") []
  rw [htok]
  simp

/-- Parsing `Bearer <k1>="<v1>",<k2>="<v2>"` returns exactly the two
attribute pairs in parameter order, for any clean non-empty keys and
values. -/
theorem getAuthenticationAttributes_two_params
    (k1 v1 k2 v2 status body : String)
    (hk1 : k1.data ≠ []) (hv1 : v1.data ≠ []) (hk2 : k2.data ≠ []) (hv2 : v2.data ≠ [])
    (ak1 : avoids k1.data challengeDelims) (av1 : avoids v1.data challengeDelims)
    (ak2 : avoids k2.data challengeDelims) (av2 : avoids v2.data challengeDelims) :
    getAuthenticationAttributes
      ⟨status,
        [("WWW-Authenticate",
          "Bearer " ++ k1 ++ "=\"" ++ v1 ++ "\"," ++ k2 ++ "=\"" ++ v2 ++ "\"")],
        body⟩
      = .ok [(k1, v1), (k2, v2)] := by
  have weaken : ∀ {l : List Char} (d' : List Char), avoids l challengeDelims →
      (∀ c ∈ d', c ∈ challengeDelims) → avoids l d' := by
    intro l d' h hs
    exact avoids_subset h hs
  have asp1 : avoids k1.data [' '] := weaken [' '] ak1 (by decide)
  have asp2 : avoids v1.data [' '] := weaken [' '] av1 (by decide)
  have asp3 : avoids k2.data [' '] := weaken [' '] ak2 (by decide)
  have asp4 : avoids v2.data [' '] := weaken [' '] av2 (by decide)
  have aco1 : avoids k1.data [','] := weaken [','] ak1 (by decide)
  have aco2 : avoids v1.data [','] := weaken [','] av1 (by decide)
  have aeq1 : avoids k1.data ['=', '"'] := weaken ['=', '"'] ak1 (by decide)
  have aeq2 : avoids v1.data ['=', '"'] := weaken ['=', '"'] av1 (by decide)
  have aeq3 : avoids k2.data ['=', '"'] := weaken ['=', '"'] ak2 (by decide)
  have aeq4 : avoids v2.data ['=', '"'] := weaken ['=', '"'] av2 (by decide)
  set A : List Char := k1.data ++ '=' :: '"' :: (v1.data ++ ['"']) with hA
  set B : List Char := k2.data ++ '=' :: '"' :: (v2.data ++ ['"']) with hB
  set T : List Char := A ++ ',' :: B with hT
  have hAne : A ≠ [] := by
    rw [hA]
    intro h
    exact hk1 (List.append_eq_nil.mp h).1
  have hBne : B ≠ [] := by
    rw [hB]
    intro h
    exact hk2 (List.append_eq_nil.mp h).1
  have hTne : T ≠ [] := by
    rw [hT]
    intro h
    exact hAne (List.append_eq_nil.mp h).1
  have hAsp : avoids A [' '] := by
    rw [hA]
    exact avoids_append asp1 (avoids_cons (by decide) (avoids_cons (by decide)
      (avoids_append asp2 (by decide))))
  have hBsp : avoids B [' '] := by
    rw [hB]
    exact avoids_append asp3 (avoids_cons (by decide) (avoids_cons (by decide)
      (avoids_append asp4 (by decide))))
  have hTsp : avoids T [' '] := by
    rw [hT]
    exact avoids_append hAsp (avoids_cons (by decide) hBsp)
  have hAco : avoids A [','] := by
    rw [hA]
    exact avoids_append aco1 (avoids_cons (by decide) (avoids_cons (by decide)
      (avoids_append aco2 (by decide))))
  have hS : ("Bearer " ++ k1 ++ "=\"" ++ v1 ++ "\"," ++ k2 ++ "=\"" ++ v2 ++ "\"").data
      = ['B', 'e', 'a', 'r', 'e', 'r'] ++ ' ' :: T := by
    rw [hT, hA, hB]
    simp [strDataAppend]
  have htok : tokenizeAux [' '] (['B', 'e', 'a', 'r', 'e', 'r'] ++ ' ' :: T) []
      = [['B', 'e', 'a', 'r', 'e', 'r'], T] := by
    rw [tokenizeAux_split [' '] ['B', 'e', 'a', 'r', 'e', 'r'] ' ' T (by decide)
      (by decide) (by decide)]
    rw [tokenizeAux_all [' '] T hTsp hTne]
  have hparams : tokenizeAux [','] T [] = [A, B] := by
    have hshape : T = A ++ ',' :: B := hT
    rw [hshape, tokenizeAux_split [','] A ',' B hAco hAne (by decide)]
    rw [tokenizeAux_all [','] B (by
      rw [hB]
      exact avoids_append (weaken [','] ak2 (by decide)) (avoids_cons (by decide)
        (avoids_cons (by decide) (avoids_append (weaken [','] av2 (by decide))
          (by decide))))) hBne]
  have htokA : tokenizeAux ['=', '"'] A [] = [k1.data, v1.data] := by
    rw [hA]
    exact tokenizeAux_param k1.data v1.data hk1 hv1 aeq1 aeq2
  have htokB : tokenizeAux ['=', '"'] B [] = [k2.data, v2.data] := by
    rw [hB]
    exact tokenizeAux_param k2.data v2.data hk2 hv2 aeq3 aeq4
  have hlook : headerLookup
      [("WWW-Authenticate",
        "Bearer " ++ k1 ++ "=\"" ++ v1 ++ "\"," ++ k2 ++ "=\"" ++ v2 ++ "\"")]
      "WWW-Authenticate"
      = some ("Bearer " ++ k1 ++ "=\"" ++ v1 ++ "\"," ++ k2 ++ "=\"" ++ v2 ++ "\"") := by
    simp [headerLookup]
  have htokS : tokenizeStr
      ("Bearer " ++ k1 ++ "=\"" ++ v1 ++ "\"," ++ k2 ++ "=\"" ++ v2 ++ "\"") " "
      = ["Bearer", String.mk T] := by
    unfold tokenizeStr
    rw [show (" " : String).data = [' '] from rfl, hS, htok]
    rfl
  have hparamsStr : tokenizeStr (String.mk T) "," = [String.mk A, String.mk B] := by
    unfold tokenizeStr
    rw [show ("," : String).data = [','] from rfl, show (String.mk T).data = T from rfl,
      hparams]
    rfl
  have e1 : tokenizeStr (String.mk A) "=\"" = [k1, v1] := by
    unfold tokenizeStr
    rw [show ("=\"" : String).data = ['=', '"'] from rfl,
      show (String.mk A).data = A from rfl, htokA]
    simp [strMkData]
  have e2 : tokenizeStr (String.mk B) "=\"" = [k2, v2] := by
    unfold tokenizeStr
    rw [show ("=\"" : String).data = ['=', '"'] from rfl,
      show (String.mk B).data = B from rfl, htokB]
    simp [strMkData]
  rw [getAuthenticationAttributes_dispatch _
      ("Bearer " ++ k1 ++ "=\"" ++ v1 ++ "\"," ++ k2 ++ "=\"" ++ v2 ++ "\"")
      (String.mk T) hlook htokS]
  rw [hparamsStr]
  simp [collectAuthParams, e1, e2]

/-- `getAuthenticationAttributes` seen past the header lookup. -/
theorem getAuthenticationAttributes_eq_match (r : HttpResponse) (s : String)
    (hlook : headerLookup r.headers "WWW-Authenticate" = some s) :
    getAuthenticationAttributes r
      = match tokenizeStr s " " with
        | [t0, t1] =>
          if t0 ≠ "Bearer" then
            Except.error ("Invalid authentication header value: " ++ s)
          else collectAuthParams (tokenizeStr t1 ",") []
        | _ => Except.error ("Invalid authentication header value: " ++ s) := by
  unfold getAuthenticationAttributes
  rw [hlook]

/-- A parameter that does not decompose into exactly two `=`/`"` pieces
fails the whole attribute loop. -/
theorem collectAuthParams_error : ∀ (ps : List String) (acc : Headers) (p : String),
    p ∈ ps → (tokenizeStr p "=\"").length ≠ 2 →
    ∃ e, collectAuthParams ps acc = .error e := by
  intro ps
  induction ps with
  | nil =>
    intro acc p hp _
    exact absurd hp (List.not_mem_nil p)
  | cons q qs ih =>
    intro acc p hp hlen
    cases htp : tokenizeStr q "=\"" with
    | nil =>
      exact ⟨"Failed to get authentication attribute from response parameter " ++ q,
        by simp [collectAuthParams, htp]⟩
    | cons a rest =>
      cases rest with
      | nil =>
        exact ⟨"Failed to get authentication attribute from response parameter " ++ q,
          by simp [collectAuthParams, htp]⟩
      | cons b rest2 =>
        cases rest2 with
        | nil =>
          rcases List.mem_cons.mp hp with h | h
          · rw [h] at hlen
            rw [htp] at hlen
            simp at hlen
          · have := ih (acc ++ [(a, b)]) p h hlen
            simpa [collectAuthParams, htp] using this
        | cons c rest3 =>
          exact ⟨"Failed to get authentication attribute from response parameter " ++ q,
            by simp [collectAuthParams, htp]⟩

/-- C4 witness: the amended characterization evaluated at concrete
locations, among them the spec's scenario S3 redirect
`https://cdn.example:8443/blobs/sha256:layer1`. -/
theorem claim4_redirect_resolver_amended_witness :
    toURL "ftp://example/x"
      = ToURLResult.err "Failed to find expected token 'https://' in redirect url"
    ∧ toURL "https://cdn.example/blobs/abc"
      = ToURLResult.ok ⟨"https", "cdn.example", some 443, "/blobs/abc"⟩
    ∧ toURL "https://cdn.example:8443/blobs/sha256:layer1"
      = ToURLResult.ok ⟨"https", "cdn.example", some 8443, "/blobs/sha256:layer1"⟩
    ∧ toURL "https://cdn.example:99999/x"
      = ToURLResult.err "Failed to parse location: https://cdn.example:99999/x for port."
    ∧ toURL "https://a:b:c/x"
      = ToURLResult.ok ⟨"https", "a:b:c", some 443, "/x"⟩ := by
  refine ⟨?_, ?_, ?_, ?_, ?_⟩
  · exact claim4_redirect_resolver_amended.1 "ftp://example/x" (by decide)
  · exact claim4_redirect_resolver_amended.2.1 "cdn.example" "blobs/abc"
      (by decide) (by decide)
  · exact claim4_redirect_resolver_amended.2.2.1 "cdn.example" "8443" "blobs/sha256:layer1"
      (by decide) (by decide) (by decide) (by decide) 8443 (by decide)
  · exact claim4_redirect_resolver_amended.2.2.2.1 "cdn.example" "99999" "x"
      (by decide) (by decide) (by decide) (by decide) (by decide)
  · exact claim4_redirect_resolver_amended.2.2.2.2 "a" "b" "c" "x"
      (by decide) (by decide) (by decide) (by decide) (by decide) (by decide)

/-- C7: for every challenge of the form `Bearer k1="v1",k2="v2"` (clean
non-empty keys and values), the parser returns exactly the mapping with
those two bindings, irrespective of parameter order (the two orders give
association lists with identical lookups); and it fails with
`InvalidChallenge` when the scheme token is not `Bearer`, when the blank
tokenization does not yield exactly two tokens, or when some parameter does
not decompose into exactly two pieces on the `=`/`"` delimiters. -/
theorem claim7_challenge_parser_roundtrip :
    (∀ k1 v1 k2 v2 status body : String,
      k1.data ≠ [] → v1.data ≠ [] → k2.data ≠ [] → v2.data ≠ [] →
      avoids k1.data challengeDelims → avoids v1.data challengeDelims →
      avoids k2.data challengeDelims → avoids v2.data challengeDelims →
      getAuthenticationAttributes
        ⟨status,
          [("WWW-Authenticate",
            "Bearer " ++ k1 ++ "=\"" ++ v1 ++ "\"," ++ k2 ++ "=\"" ++ v2 ++ "\"")],
          body⟩
        = .ok [(k1, v1), (k2, v2)]
      ∧ getAuthenticationAttributes
        ⟨status,
          [("WWW-Authenticate",
            "Bearer " ++ k2 ++ "=\"" ++ v2 ++ "\"," ++ k1 ++ "=\"" ++ v1 ++ "\"")],
          body⟩
        = .ok [(k2, v2), (k1, v1)]
      ∧ (k1 ≠ k2 → ∀ key : String,
          headerLookup [(k1, v1), (k2, v2)] key
            = headerLookup [(k2, v2), (k1, v1)] key))
    ∧ (∀ (r : HttpResponse) (s : String),
      headerLookup r.headers "WWW-Authenticate" = some s →
      (∀ t0 t1 : String, tokenizeStr s " " = [t0, t1] → t0 ≠ "Bearer" →
        getAuthenticationAttributes r
          = .error ("Invalid authentication header value: " ++ s))
      ∧ ((tokenizeStr s " ").length ≠ 2 →
        getAuthenticationAttributes r
          = .error ("Invalid authentication header value: " ++ s))
      ∧ (∀ t1 : String, tokenizeStr s " " = ["Bearer", t1] →
        ∀ p ∈ tokenizeStr t1 ",", (tokenizeStr p "=\"").length ≠ 2 →
        ∃ e, getAuthenticationAttributes r = .error e)) := by
  constructor
  · intro k1 v1 k2 v2 status body hk1 hv1 hk2 hv2 ak1 av1 ak2 av2
    refine ⟨getAuthenticationAttributes_two_params k1 v1 k2 v2 status body
        hk1 hv1 hk2 hv2 ak1 av1 ak2 av2,
      getAuthenticationAttributes_two_params k2 v2 k1 v1 status body
        hk2 hv2 hk1 hv1 ak2 av2 ak1 av1, ?_⟩
    intro hne key
    by_cases h1 : k1 = key
    · by_cases h2 : k2 = key
      · exact absurd (h1.trans h2.symm) hne
      · simp [headerLookup, h1, h2]
    · by_cases h2 : k2 = key
      · simp [headerLookup, h1, h2]
      · simp [headerLookup, h1, h2]
  · intro r s hlook
    refine ⟨?_, ?_, ?_⟩
    · intro t0 t1 htok hne
      rw [getAuthenticationAttributes_eq_match r s hlook, htok]
      simp [hne]
    · intro hlen
      rw [getAuthenticationAttributes_eq_match r s hlook]
      cases hts : tokenizeStr s " " with
      | nil => rfl
      | cons a rest =>
        cases rest with
        | nil => rfl
        | cons b rest2 =>
          cases rest2 with
          | nil =>
            rw [hts] at hlen
            simp at hlen
          | cons c rest3 => rfl
    · intro t1 htok p hp hlen
      rw [getAuthenticationAttributes_dispatch r s t1 hlook htok]
      exact collectAuthParams_error (tokenizeStr t1 ",") [] p hp hlen

/-- C7 witness: the round trip and the failure modes at concrete
challenges — `Bearer service="SVC",scope="SCP"` in both parameter orders,
a `Basic` challenge, a challenge with one blank token, and a challenge
whose parameter has no `=`/`"` structure. -/
theorem claim7_challenge_parser_roundtrip_witness :
    getAuthenticationAttributes
      ⟨"401 Unauthorized",
        [("WWW-Authenticate", "Bearer service=\"SVC\",scope=\"SCP\"")], ""⟩
      = .ok [("service", "SVC"), ("scope", "SCP")]
    ∧ getAuthenticationAttributes
      ⟨"401 Unauthorized",
        [("WWW-Authenticate", "Bearer scope=\"SCP\",service=\"SVC\"")], ""⟩
      = .ok [("scope", "SCP"), ("service", "SVC")]
    ∧ headerLookup [("service", "SVC"), ("scope", "SCP")] "scope"
      = headerLookup [("scope", "SCP"), ("service", "SVC")] "scope"
    ∧ getAuthenticationAttributes
      ⟨"401 Unauthorized", [("WWW-Authenticate", "Basic x=\"y\"")], ""⟩
      = .error ("Invalid authentication header value: " ++ "Basic x=\"y\"")
    ∧ getAuthenticationAttributes
      ⟨"401 Unauthorized", [("WWW-Authenticate", "Bearer")], ""⟩
      = .error ("Invalid authentication header value: " ++ "Bearer")
    ∧ ∃ e, getAuthenticationAttributes
      ⟨"401 Unauthorized", [("WWW-Authenticate", "Bearer abc")], ""⟩
      = .error e := by
  have h1 := (claim7_challenge_parser_roundtrip.1 "service" "SVC" "scope" "SCP"
    "401 Unauthorized" "" (by decide) (by decide) (by decide) (by decide)
    (by decide) (by decide) (by decide) (by decide))
  have h2 := (claim7_challenge_parser_roundtrip.2
    ⟨"401 Unauthorized", [("WWW-Authenticate", "Basic x=\"y\"")], ""⟩
    "Basic x=\"y\"" (by decide))
  have h3 := (claim7_challenge_parser_roundtrip.2
    ⟨"401 Unauthorized", [("WWW-Authenticate", "Bearer")], ""⟩
    "Bearer" (by decide))
  have h4 := (claim7_challenge_parser_roundtrip.2
    ⟨"401 Unauthorized", [("WWW-Authenticate", "Bearer abc")], ""⟩
    "Bearer abc" (by decide))
  refine ⟨h1.1, h1.2.1, h1.2.2 (by decide) "scope",
    h2.1 "Basic" "x=\"y\"" (by decide) (by decide),
    h3.2.1 (by decide),
    h4.2.2 "abc" (by decide) "abc" (by decide) (by decide)⟩

/-- stout `JSON::Value`, restricted to the shapes the client inspects. -/
inductive JSONValue where
  | null : JSONValue
  | boolean : Bool → JSONValue
  | number : Int → JSONValue
  | str : String → JSONValue
  | arr : List JSONValue → JSONValue
  | obj : List (String × JSONValue) → JSONValue

/-- A parsed JSON object: field name to value, first entry for a key
wins. -/
abbrev JSONObject := List (String × JSONValue)

def jsonLookup : JSONObject → String → Option JSONValue
  | [], _ => none
  | (k, v) :: rest, key => if k = key then some v else jsonLookup rest key

/-- Modelled from the spec: stout `JSON::Object::find<JSON::String>` (stout
is not among the repository's files).  Per spec §4.F, a field that is
missing or not of the requested type makes the lookup fail, which the
callers' `isNone`/`isSome` checks turn into `MalformedManifest`; so the
model returns `none` in both cases. -/
def findString (o : JSONObject) (key : String) : Option String :=
  match jsonLookup o key with
  | some (.str s) => some s
  | _ => none

/-- Modelled from the spec: stout `JSON::Object::find<JSON::Array>`, as
`findString`. -/
def findArray (o : JSONObject) (key : String) : Option (List JSONValue) :=
  match jsonLookup o key with
  | some (.arr vs) => some vs
  | _ => none

/-- `FileSystemLayerInfo` (registry_client.hpp): one layer's blob digest
and layer id. -/
structure FileSystemLayerInfo where
  blobSum : String
  layerId : String
  deriving DecidableEq, Repr

/-- `Manifest` (registry_client.hpp): name, digest from the
`Docker-Content-Digest` header, and the layers in `fsLayers` order. -/
structure Manifest where
  name : String
  digest : String
  layers : List FileSystemLayerInfo
  deriving DecidableEq, Repr

/-- The per-index body of the `foreach` loop in the `getManifest` lambda
(lines 513-573), walking `fsLayers` and `history` together (the caller has
already checked that the two arrays have equal length, so simultaneous
recursion visits exactly the source's `index`-addressed pairs): each layer
must be an object with a `blobSum` string; the history entry must be an
object whose `v1Compatibility` string parses (via the external `parse`
collaborator) to an object with an `id` string. -/
def decodeLayers (parse : String → Except String JSONObject) :
    List JSONValue → List JSONValue → Nat → Except String (List FileSystemLayerInfo)
  | [], _, _ => .ok []
  | _ :: _, [], _ =>
    -- Unreachable under the caller's length-equality check.
    .error "\"history\" and \"fsLayers\" array count mismatchin manifest response"
  | layer :: ls, hist :: hs, index =>
    match layer with
    | .obj layerInfoJSON =>
      match findString layerInfoJSON "blobSum" with
      | none => .error "Failed to find \"blobSum\" in manifest response"
      | some blobSum =>
        match hist with
        | .obj historyObj =>
          match findString historyObj "v1Compatibility" with
          | none => .error ("Failed to obtain layer v1 compability json in manifest for layer: "
              ++ toString index)
          | some v1 =>
            match parse v1 with
            | .error _ => .error ("Failed to parse v1 compability json in manifest for layer: "
                ++ toString index)
            | .ok v1CompatibilityObj =>
              match findString v1CompatibilityObj "id" with
              | none => .error ("Failed to find \"id\" in manifest for layer: "
                  ++ toString index)
              | some layerId =>
                match decodeLayers parse ls hs (index + 1) with
                | .error e => .error e
                | .ok rest => .ok (⟨blobSum, layerId⟩ :: rest)
        | _ => .error ("Failed to parse history as a JSON object for index: "
            ++ toString index)
    | _ => .error ("Failed to parse layer as a JSON object for index: " ++ toString index)

/-- The `getManifest` lambda of `RegistryClientProcess::getManifest`
(lines 473-580): require the `Docker-Content-Digest` header, parse the body
as a JSON object (`parse` stands for the external `JSON::parse`), require
`name`, `fsLayers` and `history`, require equal array lengths, decode the
layers, and assemble the manifest. -/
def manifestFromResponse (parse : String → Except String JSONObject)
    (r : HttpResponse) : Except String Manifest :=
  match headerLookup r.headers "Docker-Content-Digest" with
  | none => .error "Docker-Content-Digest header missing in response"
  | some digest =>
    match parse r.body with
    | .error e => .error e
    | .ok responseJSON =>
      match findString responseJSON "name" with
      | none => .error "Failed to find \"name\" in manifest response"
      | some name =>
        match findArray responseJSON "fsLayers" with
        | none => .error "Failed to find \"fsLayers\" in manifest response"
        | some fsLayers =>
          match findArray responseJSON "history" with
          | none => .error "Failed to find \"history\" in manifest response"
          | some historyArray =>
            if historyArray.length ≠ fsLayers.length then
              .error "\"history\" and \"fsLayers\" array count mismatchin manifest response"
            else
              match decodeLayers parse fsLayers historyArray 0 with
              | .error e => .error e
              | .ok layers => .ok ⟨name, digest, layers⟩

/-- Spec-side decoder, written from the words of spec §4.F for comparison
with the source's `manifestFromResponse`: required header
`Docker-Content-Digest`; required top-level `name`, `fsLayers`, `history`;
`len(history) == len(fsLayers)`; for each index parse
`history[i].v1Compatibility` as an embedded object and extract its `id`;
emit `{blob_sum = fsLayers[i].blobSum, layer_id = id}` in order; return
`Manifest{name, digest = header value, layers}`; any missing or
wrongly-typed field fails the whole call with no partial manifest. -/
def specLayers (parse : String → Except String JSONObject) :
    List JSONValue → List JSONValue → Option (List FileSystemLayerInfo)
  | [], [] => some []
  | f :: fs, h :: hs => do
    let fo ← match f with
      | .obj o => some o
      | _ => none
    let blobSum ← findString fo "blobSum"
    let ho ← match h with
      | .obj o => some o
      | _ => none
    let v1 ← findString ho "v1Compatibility"
    let vo ← (parse v1).toOption
    let layerId ← findString vo "id"
    let rest ← specLayers parse fs hs
    some (⟨blobSum, layerId⟩ :: rest)
  | _, _ => none

/-- Spec-side manifest decoding (spec §4.F); see `specLayers`. -/
def specManifestDecode (parse : String → Except String JSONObject)
    (r : HttpResponse) : Option Manifest := do
  let digest ← headerLookup r.headers "Docker-Content-Digest"
  let o ← (parse r.body).toOption
  let name ← findString o "name"
  let fsLayers ← findArray o "fsLayers"
  let history ← findArray o "history"
  if history.length = fsLayers.length then
    let layers ← specLayers parse fsLayers history
    some ⟨name, digest, layers⟩
  else none

/-- The source's layer loop agrees with the spec-side layer decoding on
arrays of equal length (the only way it is called): it succeeds with a
layer list exactly when the spec description does. -/
theorem decodeLayers_iff (parse : String → Except String JSONObject) :
    ∀ (fs hs : List JSONValue) (i : Nat) (L : List FileSystemLayerInfo),
    fs.length = hs.length →
    (decodeLayers parse fs hs i = .ok L ↔ specLayers parse fs hs = some L) := by
  intro fs
  induction fs with
  | nil =>
    intro hs i L hlen
    cases hs with
    | nil => simp [decodeLayers, specLayers]
    | cons h hs' => simp at hlen
  | cons f fs' ih =>
    intro hs i L hlen
    cases hs with
    | nil => simp at hlen
    | cons h hs' =>
      have hlen' : fs'.length = hs'.length := by simpa using hlen
      cases f with
      | obj fo =>
        cases hbs : findString fo "blobSum" with
        | none => simp [decodeLayers, specLayers, hbs]
        | some bs =>
          cases h with
          | obj ho =>
            cases hv1 : findString ho "v1Compatibility" with
            | none => simp [decodeLayers, specLayers, hbs, hv1]
            | some v1 =>
              cases hp : parse v1 with
              | error e =>
                simp [decodeLayers, specLayers, hbs, hv1, hp, Except.toOption]
              | ok vo =>
                cases hid : findString vo "id" with
                | none =>
                  simp [decodeLayers, specLayers, hbs, hv1, hp, hid, Except.toOption]
                | some layerId =>
                  constructor
                  · intro hok
                    cases hrec : decodeLayers parse fs' hs' (i + 1) with
                    | error e =>
                      rw [decodeLayers] at hok
                      simp [hbs, hv1, hp, hid, hrec] at hok
                    | ok rest =>
                      rw [decodeLayers] at hok
                      simp [hbs, hv1, hp, hid, hrec] at hok
                      have hspec := (ih hs' (i + 1) rest hlen').mp hrec
                      simp [specLayers, hbs, hv1, hp, hid, Except.toOption, hspec]
                      exact hok
                  · intro hok
                    cases hspec : specLayers parse fs' hs' with
                    | none =>
                      rw [specLayers] at hok
                      simp [hbs, hv1, hp, hid, Except.toOption, hspec] at hok
                    | some rest =>
                      rw [specLayers] at hok
                      simp [hbs, hv1, hp, hid, Except.toOption, hspec] at hok
                      have hrec := (ih hs' (i + 1) rest hlen').mpr hspec
                      rw [decodeLayers]
                      simp [hbs, hv1, hp, hid, hrec]
                      exact hok
          | null => simp [decodeLayers, specLayers, hbs]
          | boolean b => simp [decodeLayers, specLayers, hbs]
          | number n => simp [decodeLayers, specLayers, hbs]
          | str s => simp [decodeLayers, specLayers, hbs]
          | arr vs => simp [decodeLayers, specLayers, hbs]
      | null => simp [decodeLayers, specLayers]
      | boolean b => simp [decodeLayers, specLayers]
      | number n => simp [decodeLayers, specLayers]
      | str s => simp [decodeLayers, specLayers]
      | arr vs => simp [decodeLayers, specLayers]

/-- The source's manifest decoding agrees with the spec description: it
returns a manifest exactly when the spec-side decoding does, and the same
manifest. -/
theorem manifestFromResponse_iff (parse : String → Except String JSONObject)
    (r : HttpResponse) (m : Manifest) :
    manifestFromResponse parse r = .ok m ↔ specManifestDecode parse r = some m := by
  cases hdg : headerLookup r.headers "Docker-Content-Digest" with
  | none => simp [manifestFromResponse, specManifestDecode, hdg]
  | some digest =>
    cases hp : parse r.body with
    | error e => simp [manifestFromResponse, specManifestDecode, hdg, hp, Except.toOption]
    | ok o =>
      cases hname : findString o "name" with
      | none =>
        simp [manifestFromResponse, specManifestDecode, hdg, hp, hname, Except.toOption]
      | some name =>
        cases hfs : findArray o "fsLayers" with
        | none =>
          simp [manifestFromResponse, specManifestDecode, hdg, hp, hname, hfs,
            Except.toOption]
        | some fsLayers =>
          cases hhist : findArray o "history" with
          | none =>
            simp [manifestFromResponse, specManifestDecode, hdg, hp, hname, hfs, hhist,
              Except.toOption]
          | some history =>
            by_cases hlen : history.length = fsLayers.length
            · cases hdec : decodeLayers parse fsLayers history 0 with
              | error e =>
                cases hspec : specLayers parse fsLayers history with
                | none =>
                  simp [manifestFromResponse, specManifestDecode, hdg, hp, hname, hfs,
                    hhist, hlen, hdec, hspec, Except.toOption]
                | some rest =>
                  have h2 := (decodeLayers_iff parse fsLayers history 0 rest
                    hlen.symm).mpr hspec
                  rw [h2] at hdec
                  exact absurd hdec (by simp)
              | ok layers =>
                have hspec := (decodeLayers_iff parse fsLayers history 0 layers
                  hlen.symm).mp hdec
                simp [manifestFromResponse, specManifestDecode, hdg, hp, hname, hfs,
                  hhist, hlen, hdec, hspec, Except.toOption]
            · simp [manifestFromResponse, specManifestDecode, hdg, hp, hname, hfs,
                hhist, hlen, Except.toOption]

/-- Whatever manifest the source decoder returns carries exactly the value
of the `Docker-Content-Digest` header as its digest. -/
theorem manifestFromResponse_digest (parse : String → Except String JSONObject)
    (r : HttpResponse) (m : Manifest)
    (h : manifestFromResponse parse r = .ok m) :
    headerLookup r.headers "Docker-Content-Digest" = some m.digest := by
  cases hdg : headerLookup r.headers "Docker-Content-Digest" with
  | none => simp [manifestFromResponse, hdg] at h
  | some digest =>
    cases hp : parse r.body with
    | error e => simp [manifestFromResponse, hdg, hp] at h
    | ok o =>
      cases hname : findString o "name" with
      | none => simp [manifestFromResponse, hdg, hp, hname] at h
      | some name =>
        cases hfs : findArray o "fsLayers" with
        | none => simp [manifestFromResponse, hdg, hp, hname, hfs] at h
        | some fsLayers =>
          cases hhist : findArray o "history" with
          | none => simp [manifestFromResponse, hdg, hp, hname, hfs, hhist] at h
          | some history =>
            by_cases hlen : history.length = fsLayers.length
            · cases hdec : decodeLayers parse fsLayers history 0 with
              | error e =>
                simp [manifestFromResponse, hdg, hp, hname, hfs, hhist, hlen, hdec] at h
              | ok layers =>
                simp [manifestFromResponse, hdg, hp, hname, hfs, hhist, hlen, hdec] at h
                rw [← h]
            · simp [manifestFromResponse, hdg, hp, hname, hfs, hhist, hlen] at h

/-- A concrete stand-in for the external stout JSON parser, used only to
evaluate the embedding at concrete inputs: a fixed table from body text to
parsed object.  `MANIFEST_OK`/`V1_OK` is the spec's scenario S1 manifest;
`MANIFEST_EMPTYFIELDS`/`V1_EMPTY` is the same manifest with empty `name`,
`blobSum` and `id` strings; `ERRORS_TWO` is the spec's scenario S4 error
body; `ERRORS_NONOBJ` is an error body whose `errors` array holds a
number. -/
def parseFixture : String → Except String JSONObject := fun s =>
  if s = "MANIFEST_OK" then
    .ok [("name", .str "library/alpine"),
      ("fsLayers", .arr [.obj [("blobSum", .str "sha256:layer1")]]),
      ("history", .arr [.obj [("v1Compatibility", .str "V1_OK")]])]
  else if s = "V1_OK" then .ok [("id", .str "id1")]
  else if s = "MANIFEST_EMPTYFIELDS" then
    .ok [("name", .str ""),
      ("fsLayers", .arr [.obj [("blobSum", .str "")]]),
      ("history", .arr [.obj [("v1Compatibility", .str "V1_EMPTY")]])]
  else if s = "V1_EMPTY" then .ok [("id", .str "")]
  else if s = "ERRORS_NONOBJ" then .ok [("errors", .arr [.number 42])]
  else if s = "ERRORS_TWO" then
    .ok [("errors", .arr [.obj [("message", .str "manifest unknown")],
      .obj [("message", .str "repo not found")]])]
  else .error "Syntax error"

/-- The spec's scenario S1 manifest response. -/
def respS1 : HttpResponse :=
  ⟨"200 OK", [("Docker-Content-Digest", "sha256:abc")], "MANIFEST_OK"⟩

/-- The manifest scenario S1 expects. -/
def manifestS1 : Manifest :=
  ⟨"library/alpine", "sha256:abc", [⟨"sha256:layer1", "id1"⟩]⟩

/-- C8: for every 200 manifest response, the source decoder fails exactly
when the spec-side decoding does — missing `Docker-Content-Digest` header,
missing or wrongly-typed `name`/`fsLayers`/`history`, length mismatch
between `history` and `fsLayers`, or a `v1Compatibility` entry that does
not parse to an object with an `id` string — and otherwise returns exactly
the spec-side manifest: layers in `fsLayers` source order with
`blob_sum = fsLayers[i].blobSum` and `layer_id` the id from
`history[i].v1Compatibility`; being a total function into `Except`,
no partial manifest is returned on any failure. -/
theorem claim8_manifest_decoder_matches_spec :
    ∀ (parse : String → Except String JSONObject) (r : HttpResponse) (m : Manifest),
    manifestFromResponse parse r = .ok m ↔ specManifestDecode parse r = some m := by
  intro parse r m
  exact manifestFromResponse_iff parse r m

/-- C8 witness: the equivalence evaluated on the spec's scenario S1
response. -/
theorem claim8_manifest_decoder_matches_spec_witness :
    manifestFromResponse parseFixture respS1 = .ok manifestS1
      ∧ specManifestDecode parseFixture respS1 = some manifestS1 := by
  have h := claim8_manifest_decoder_matches_spec parseFixture respS1 manifestS1
  exact ⟨by rfl, h.mp (by rfl)⟩

/-- A bearer token; only the raw text is used by the driver
(`"Bearer " + token.raw`). -/
structure Token where
  raw : String
  deriving DecidableEq, Repr

/-- Result of a driver call or of a facade call.  `failure` carries the
source's `Failure` message; `abort` marks C++ behavior that does not
produce a `Failure` at all (`as<T>` on a JSON value of the wrong type
throws, a vector is indexed out of bounds); `noResponse` means the
scripted server ran out of responses (the transport future never
completed). -/
inductive CallResult (α : Type) where
  | ok (a : α)
  | failure (msg : String)
  | abort (msg : String)
  | noResponse
  deriving DecidableEq, Repr

/-- One observable side effect of the client, in order of occurrence. -/
inductive Event where
  | httpGet (url : URL) (headers : Option Headers)
  | tokenRequest (service : String) (scope : String)
  | mkdirCall (dir : String)
  | fileWrite (path : String) (contents : String)
  deriving DecidableEq, Repr

/-- The `400 Bad Request` branch of `doHttpGet` (lines 277-318): parse the
body as a JSON object, find the `errors` array, and concatenate the
`message` of each element with `", "` into the failure text.  An element
that is not a JSON object hits `JSON::Value::as<JSON::Object>` on the
wrong variant — an exception the source never catches — modelled as
`none` here and `abort` at the caller. -/
def collectMessages : List JSONValue → Option (List String)
  | [] => some []
  | v :: vs =>
    match v with
    | .obj o =>
      match findString o "message" with
      | none => collectMessages vs
      | some m => (collectMessages vs).map (fun rest => m :: rest)
    | _ => none

/-- The `first`/`out` concatenation of the 400 branch: messages joined
with `", "`. -/
def joinMessages : List String → String
  | [] => ""
  | [m] => m
  | m :: ms => m ++ ", " ++ joinMessages ms

/-- The full `400 Bad Request` handling. -/
def bad400 (parse : String → Except String JSONObject)
    (r : HttpResponse) : CallResult HttpResponse :=
  match parse r.body with
  | .error e => .failure ("Failed to parse bad request response JSON: " ++ e)
  | .ok errorResponse =>
    -- The source distinguishes a find error from an absent key with two
    -- different failure texts; with the spec-modelled Option-valued find
    -- both collapse to the absent-key text.
    match findArray errorResponse "errors" with
    | none => .failure "Errors not found in bad request response"
    | some errorObjects =>
      match collectMessages errorObjects with
      | none => .abort "JSON value is not an object: as<JSON::Object> throws"
      | some msgs => .failure ("Received Bad request, errors: [" ++ joinMessages msgs ++ "]")

/-- `RegistryClientProcess::doHttpGet` (lines 258-452) over a scripted
server: each issued GET is logged as an event and consumes the next
scripted response.  `getToken` is the external Token Manager collaborator
(its request is logged; an `error` result is the failed token future whose
message propagates).  The branch order is the source's: 200, 400, the
loop check on `lastResponseStatus`, the `resend` check, 401, 307,
otherwise. -/
def doHttpGet (parse : String → Except String JSONObject)
    (getToken : String → String → Except String Token) :
    URL → Option Headers → Bool → Option String → List HttpResponse →
    CallResult HttpResponse × List Event
  | url, headers, _, _, [] => (.noResponse, [.httpGet url headers])
  | url, headers, resend, last, r :: rest =>
    let ev : Event := .httpGet url headers
    if r.status = "200 OK" then
      (.ok r, [ev])
    else if r.status = "400 Bad Request" then
      (bad400 parse r, [ev])
    else if last = some r.status then
      -- "Prevent infinite recursion."
      (.failure ("Invalid response: " ++ r.status), [ev])
    else if resend = false then
      (.failure ("Bad response: " ++ r.status), [ev])
    else if r.status = "401 Unauthorized" then
      match getAuthenticationAttributes r with
      | .error e => (.failure ("Failed to get authentication attributes: " ++ e), [ev])
      | .ok authAttributes =>
        match headerLookup authAttributes "service" with
        | none =>
          (.failure "Failed to find authentication attribute \"service\" in responsefrom authorization server",
            [ev])
        | some service =>
          match headerLookup authAttributes "scope" with
          | none =>
            (.failure "Failed to find authentication attribute \"scope\" in responsefrom authorization server",
              [ev])
          | some scope =>
            match getToken service scope with
            | .error e => (.failure e, [ev, .tokenRequest service scope])
            | .ok token =>
              let authHeaders : Headers := [("Authorization", "Bearer " ++ token.raw)]
              let next := doHttpGet parse getToken url (some authHeaders) true
                (some r.status) rest
              (next.1, ev :: .tokenRequest service scope :: next.2)
    else if r.status = "307 Temporary Redirect" then
      match headerLookup r.headers "Location" with
      | none =>
        (.failure "Invalid redirect response: 'Location' not found in headers.", [ev])
      | some location =>
        match toURL location with
        | .err e => (.failure ("Failed to parse '" ++ location ++ "': " ++ e), [ev])
        | .oob => (.abort "components[0] read out of bounds in toURL", [ev])
        | .ok u =>
          let next := doHttpGet parse getToken u headers false (some r.status) rest
          (next.1, ev :: next.2)
    else
      (.failure ("Invalid response: " ++ r.status), [ev])

/-- Is this event an HTTP GET? -/
def isHttpGetEvent : Event → Bool
  | .httpGet _ _ => true
  | _ => false

/-- Is this event a token-manager request? -/
def isTokenEvent : Event → Bool
  | .tokenRequest _ _ => true
  | _ => false

/-- How many HTTP GETs a trace holds. -/
def countHttpGets (evs : List Event) : Nat :=
  (evs.filter isHttpGetEvent).length

/-- How many token-manager requests a trace holds. -/
def countTokenRequests (evs : List Event) : Nat :=
  (evs.filter isTokenEvent).length

/-- Upper bound on the GETs a driver invocation can still issue, by its
`resend`/`lastResponseStatus` arguments. -/
def requestBudget : Bool → Option String → Nat
  | false, _ => 1
  | true, none => 3
  | true, some s => if s = "401 Unauthorized" then 2 else 3

/-- Upper bound on the token-manager calls a driver invocation can still
make. -/
def tokenBudget : Bool → Option String → Nat
  | false, _ => 0
  | true, none => 1
  | true, some s => if s = "401 Unauthorized" then 0 else 1

theorem countHttpGets_nil : countHttpGets [] = 0 := rfl

theorem countHttpGets_cons (e : Event) (evs : List Event) :
    countHttpGets (e :: evs)
      = (if isHttpGetEvent e then 1 else 0) + countHttpGets evs := by
  simp [countHttpGets, List.filter_cons]
  split <;> simp [Nat.add_comm]

theorem countTokenRequests_nil : countTokenRequests [] = 0 := rfl

theorem countTokenRequests_cons (e : Event) (evs : List Event) :
    countTokenRequests (e :: evs)
      = (if isTokenEvent e then 1 else 0) + countTokenRequests evs := by
  simp [countTokenRequests, List.filter_cons]
  split <;> simp [Nat.add_comm]

theorem requestBudget_ge_one (resend : Bool) (last : Option String) :
    1 ≤ requestBudget resend last := by
  cases resend <;> cases last <;> simp [requestBudget]
  split <;> omega

theorem requestBudget_ge_two (last : Option String) :
    2 ≤ requestBudget true last := by
  cases last <;> simp [requestBudget]
  split <;> omega

theorem requestBudget_after_401 (last : Option String)
    (h : last ≠ some "401 Unauthorized") :
    1 + requestBudget true (some "401 Unauthorized") ≤ requestBudget true last := by
  cases last with
  | none => simp [requestBudget]
  | some s =>
    have hs : s ≠ "401 Unauthorized" := fun hc => h (by rw [hc])
    simp [requestBudget, hs]

theorem tokenBudget_after_401 (last : Option String)
    (h : last ≠ some "401 Unauthorized") :
    1 + tokenBudget true (some "401 Unauthorized") ≤ tokenBudget true last := by
  cases last with
  | none => simp [tokenBudget]
  | some s =>
    have hs : s ≠ "401 Unauthorized" := fun hc => h (by rw [hc])
    simp [tokenBudget, hs]

/-- The driver's trace respects the request and token budgets, whatever
the server sends. -/
theorem doHttpGet_budget (parse : String → Except String JSONObject)
    (getToken : String → String → Except String Token) :
    ∀ (server : List HttpResponse) (url : URL) (headers : Option Headers)
      (resend : Bool) (last : Option String),
    countHttpGets (doHttpGet parse getToken url headers resend last server).2
      ≤ requestBudget resend last
    ∧ countTokenRequests (doHttpGet parse getToken url headers resend last server).2
      ≤ tokenBudget resend last := by
  intro server
  induction server with
  | nil =>
    intro url headers resend last
    refine ⟨?_, ?_⟩
    · simpa [doHttpGet, countHttpGets_cons, countHttpGets_nil, isHttpGetEvent]
        using requestBudget_ge_one resend last
    · simp [doHttpGet, countTokenRequests_cons, countTokenRequests_nil, isTokenEvent]
  | cons r rest ih =>
    intro url headers resend last
    simp only [doHttpGet]
    split
    · -- 200 OK
      refine ⟨?_, ?_⟩
      · simpa [countHttpGets_cons, countHttpGets_nil, isHttpGetEvent]
          using requestBudget_ge_one resend last
      · simp [countTokenRequests_cons, countTokenRequests_nil, isTokenEvent]
    · split
      · -- 400 Bad Request
        refine ⟨?_, ?_⟩
        · simpa [countHttpGets_cons, countHttpGets_nil, isHttpGetEvent]
            using requestBudget_ge_one resend last
        · simp [countTokenRequests_cons, countTokenRequests_nil, isTokenEvent]
      · split
        · -- loop detected
          refine ⟨?_, ?_⟩
          · simpa [countHttpGets_cons, countHttpGets_nil, isHttpGetEvent]
              using requestBudget_ge_one resend last
          · simp [countTokenRequests_cons, countTokenRequests_nil, isTokenEvent]
        · split
          · -- resend disabled
            refine ⟨?_, ?_⟩
            · simpa [countHttpGets_cons, countHttpGets_nil, isHttpGetEvent]
                using requestBudget_ge_one resend last
            · simp [countTokenRequests_cons, countTokenRequests_nil, isTokenEvent]
          · rename_i hloop hresend
            have hres : resend = true := by
              cases resend
              · exact absurd rfl hresend
              · rfl
            subst hres
            split
            · -- 401 Unauthorized with resend
              rename_i h401
              split
              · -- challenge parse failed
                refine ⟨?_, ?_⟩
                · simpa [countHttpGets_cons, countHttpGets_nil, isHttpGetEvent]
                    using requestBudget_ge_one true last
                · simp [countTokenRequests_cons, countTokenRequests_nil, isTokenEvent]
              · split
                · -- service missing
                  refine ⟨?_, ?_⟩
                  · simpa [countHttpGets_cons, countHttpGets_nil, isHttpGetEvent]
                      using requestBudget_ge_one true last
                  · simp [countTokenRequests_cons, countTokenRequests_nil, isTokenEvent]
                · split
                  · -- scope missing
                    refine ⟨?_, ?_⟩
                    · simpa [countHttpGets_cons, countHttpGets_nil, isHttpGetEvent]
                        using requestBudget_ge_one true last
                    · simp [countTokenRequests_cons, countTokenRequests_nil, isTokenEvent]
                  · split
                    · -- token manager failed
                      refine ⟨?_, ?_⟩
                      · simpa [countHttpGets_cons, countHttpGets_nil, isHttpGetEvent]
                          using requestBudget_ge_one true last
                      · have hl : last ≠ some "401 Unauthorized" := by
                          rw [← h401]
                          exact hloop
                        have := tokenBudget_after_401 last hl
                        simp [countTokenRequests_cons, countTokenRequests_nil,
                          isTokenEvent, isHttpGetEvent]
                        omega
                    · -- token acquired: authenticated retry
                      rename_i xa attrs ha xs service hs xsc scope hsc xt token htk
                      have hl : last ≠ some "401 Unauthorized" := by
                        rw [← h401]
                        exact hloop
                      rw [h401]
                      have hrec := ih url (some [("Authorization", "Bearer " ++ token.raw)])
                        true (some "401 Unauthorized")
                      have hb := requestBudget_after_401 last hl
                      have hbT := tokenBudget_after_401 last hl
                      refine ⟨?_, ?_⟩
                      · simp [countHttpGets_cons, isHttpGetEvent]
                        have hg := hrec.1
                        omega
                      · simp [countTokenRequests_cons, isTokenEvent]
                        have ht := hrec.2
                        omega
            · split
              · -- 307 Temporary Redirect
                split
                · -- Location missing
                  refine ⟨?_, ?_⟩
                  · simpa [countHttpGets_cons, countHttpGets_nil, isHttpGetEvent]
                      using requestBudget_ge_one true last
                  · simp [countTokenRequests_cons, countTokenRequests_nil, isTokenEvent]
                · split
                  · -- Location malformed
                    refine ⟨?_, ?_⟩
                    · simpa [countHttpGets_cons, countHttpGets_nil, isHttpGetEvent]
                        using requestBudget_ge_one true last
                    · simp [countTokenRequests_cons, countTokenRequests_nil, isTokenEvent]
                  · -- toURL hits the out-of-bounds read
                    refine ⟨?_, ?_⟩
                    · simpa [countHttpGets_cons, countHttpGets_nil, isHttpGetEvent]
                        using requestBudget_ge_one true last
                    · simp [countTokenRequests_cons, countTokenRequests_nil, isTokenEvent]
                  · -- redirect retry
                    rename_i h307 xloc location hloc xurl u hurl
                    rw [h307]
                    have hrec := ih u headers false (some "307 Temporary Redirect")
                    have hb := requestBudget_ge_two last
                    refine ⟨?_, ?_⟩
                    · simp [countHttpGets_cons, isHttpGetEvent]
                      have hg := hrec.1
                      simp only [requestBudget] at hg
                      omega
                    · simp [countTokenRequests_cons, isTokenEvent]
                      have ht := hrec.2
                      simp only [tokenBudget] at ht
                      omega
              · -- unexpected status
                refine ⟨?_, ?_⟩
                · simpa [countHttpGets_cons, countHttpGets_nil, isHttpGetEvent]
                    using requestBudget_ge_one true last
                · simp [countTokenRequests_cons, countTokenRequests_nil, isTokenEvent]

/-- A concrete stand-in for the external Token Manager: issues token `T`
for the fixture service and scope, refuses anything else. -/
def tokenFixture : String → String → Except String Token := fun service scope =>
  if service = "SVC" && scope = "SCP" then .ok ⟨"T"⟩ else .error "Token not available"

/-- A 401 response carrying the fixture bearer challenge. -/
def resp401 : HttpResponse :=
  ⟨"401 Unauthorized",
    [("WWW-Authenticate", "Bearer realm=\"R\",service=\"SVC\",scope=\"SCP\"")], ""⟩

/-- A 307 response redirecting to the spec's scenario S3 location. -/
def resp307 : HttpResponse :=
  ⟨"307 Temporary Redirect", [("Location", "https://cdn.example:8443/blobs/x")], ""⟩

/-- The fixture registry manifest URL. -/
def manifestFixtureURL : URL :=
  ⟨"https", "registry.example", some 443, "v2/library/alpine/manifests/latest"⟩

/-- C3: a driver call with retry allowed and no previous status issues at
most three HTTP GETs and at most one token-manager request, for any
sequence of server responses; a response repeating `last_status` (when not
terminal 200/400) fails with `LoopDetected` (`"Invalid response: …"`)
before any further request; and a non-terminal, non-repeated status with
retry disabled fails with `NoRetryAllowed` (`"Bad response: …"`) before
any further request. -/
theorem claim3_driver_termination :
    (∀ (parse : String → Except String JSONObject)
      (getToken : String → String → Except String Token)
      (url : URL) (headers : Option Headers) (server : List HttpResponse),
      countHttpGets (doHttpGet parse getToken url headers true none server).2 ≤ 3)
    ∧ (∀ (parse : String → Except String JSONObject)
      (getToken : String → String → Except String Token)
      (url : URL) (headers : Option Headers) (server : List HttpResponse),
      countTokenRequests (doHttpGet parse getToken url headers true none server).2 ≤ 1)
    ∧ (∀ (parse : String → Except String JSONObject)
      (getToken : String → String → Except String Token)
      (url : URL) (headers : Option Headers) (resend : Bool) (last : Option String)
      (r : HttpResponse) (rest : List HttpResponse),
      last = some r.status → r.status ≠ "200 OK" → r.status ≠ "400 Bad Request" →
      doHttpGet parse getToken url headers resend last (r :: rest)
        = (.failure ("Invalid response: " ++ r.status), [.httpGet url headers]))
    ∧ (∀ (parse : String → Except String JSONObject)
      (getToken : String → String → Except String Token)
      (url : URL) (headers : Option Headers) (last : Option String)
      (r : HttpResponse) (rest : List HttpResponse),
      last ≠ some r.status → r.status ≠ "200 OK" → r.status ≠ "400 Bad Request" →
      doHttpGet parse getToken url headers false last (r :: rest)
        = (.failure ("Bad response: " ++ r.status), [.httpGet url headers])) := by
  refine ⟨?_, ?_, ?_, ?_⟩
  · intro parse getToken url headers server
    exact (doHttpGet_budget parse getToken server url headers true none).1
  · intro parse getToken url headers server
    exact (doHttpGet_budget parse getToken server url headers true none).2
  · intro parse getToken url headers resend last r rest hloop h200 h400
    simp [doHttpGet, h200, h400, hloop]
  · intro parse getToken url headers last r rest hloop h200 h400
    simp [doHttpGet, h200, h400, hloop]

/-- C3 witness: the bounds and the two failure modes at a concrete
server script — a 401 answered by the token dance, then two 307s (three
GETs, one token call, and the second 307 trips the loop detector); a
repeated 401 with `last_status` set; and a 401 with retry disabled. -/
theorem claim3_driver_termination_witness :
    countHttpGets (doHttpGet parseFixture tokenFixture manifestFixtureURL none true none
      [resp401, resp307, resp307]).2 ≤ 3
    ∧ countTokenRequests (doHttpGet parseFixture tokenFixture manifestFixtureURL none
      true none [resp401, resp307, resp307]).2 ≤ 1
    ∧ doHttpGet parseFixture tokenFixture manifestFixtureURL none true
      (some "401 Unauthorized") [resp401]
      = (.failure ("Invalid response: " ++ "401 Unauthorized"),
        [.httpGet manifestFixtureURL none])
    ∧ doHttpGet parseFixture tokenFixture manifestFixtureURL none false none [resp401]
      = (.failure ("Bad response: " ++ "401 Unauthorized"),
        [.httpGet manifestFixtureURL none]) := by
  refine ⟨claim3_driver_termination.1 parseFixture tokenFixture manifestFixtureURL none
      [resp401, resp307, resp307],
    claim3_driver_termination.2.1 parseFixture tokenFixture manifestFixtureURL none
      [resp401, resp307, resp307],
    claim3_driver_termination.2.2.1 parseFixture tokenFixture manifestFixtureURL none
      true (some "401 Unauthorized") resp401 [] (by decide) (by decide) (by decide),
    claim3_driver_termination.2.2.2 parseFixture tokenFixture manifestFixtureURL none
      none resp401 [] (by decide) (by decide) (by decide)⟩

/-- Is this JSON value an object? -/
def isJSONObjectValue : JSONValue → Bool
  | .obj _ => true
  | _ => false

/-- The `message` of one element of the `errors` array, when the element
is an object with a string `message` (the source skips elements without
one). -/
def messageOf : JSONValue → Option String
  | .obj o => findString o "message"
  | _ => none

/-- On an `errors` array of objects, the message collection succeeds and
keeps exactly the present messages, in order. -/
theorem collectMessages_all_objects :
    ∀ vs : List JSONValue, (∀ v ∈ vs, isJSONObjectValue v = true) →
    collectMessages vs = some (vs.filterMap messageOf) := by
  intro vs
  induction vs with
  | nil => intro _; rfl
  | cons v vs' ih =>
    intro h
    have hv := h v (List.mem_cons_self v vs')
    have h' : ∀ w ∈ vs', isJSONObjectValue w = true :=
      fun w hw => h w (List.mem_cons_of_mem v hw)
    cases v with
    | obj o =>
      cases hm : findString o "message" with
      | none => simp [collectMessages, hm, ih h', List.filterMap_cons, messageOf]
      | some m => simp [collectMessages, hm, ih h', List.filterMap_cons, messageOf]
    | null => simp [isJSONObjectValue] at hv
    | boolean b => simp [isJSONObjectValue] at hv
    | number n => simp [isJSONObjectValue] at hv
    | str s => simp [isJSONObjectValue] at hv
    | arr a => simp [isJSONObjectValue] at hv

/-- C5 counterexample: a 400 body whose `errors` array holds a number —
the source calls `as<JSON::Object>` on the wrong JSON variant, which
throws instead of producing `BadRequest` or `MalformedError`, so the
driver neither fails with the concatenated messages nor with a malformed
body error. -/
theorem claim5_counterexample :
    doHttpGet parseFixture tokenFixture manifestFixtureURL none true none
      [⟨"400 Bad Request", [], "ERRORS_NONOBJ"⟩]
      = (.abort "JSON value is not an object: as<JSON::Object> throws",
        [.httpGet manifestFixtureURL none]) := by
  decide

/-- C5 (amended): for every response with status `400 Bad Request` whose
`errors` elements are all JSON objects, the driver concatenates the
present `message` fields with `", "` and fails with `BadRequest` carrying
that concatenation; it fails with `MalformedError` when the body does not
parse or the `errors` array is missing; a 400 is never retried, whatever
`allow_retry` and `last_status` are (the trace stays one GET).  An
`errors` element that is not an object instead raises an uncaught type
error in the source (see the counterexample). -/
theorem claim5_bad_request_amended :
    (∀ (parse : String → Except String JSONObject)
      (getToken : String → String → Except String Token)
      (url : URL) (headers : Option Headers) (resend : Bool) (last : Option String)
      (r : HttpResponse) (rest : List HttpResponse) (e : String),
      r.status = "400 Bad Request" → parse r.body = .error e →
      doHttpGet parse getToken url headers resend last (r :: rest)
        = (.failure ("Failed to parse bad request response JSON: " ++ e),
          [.httpGet url headers]))
    ∧ (∀ (parse : String → Except String JSONObject)
      (getToken : String → String → Except String Token)
      (url : URL) (headers : Option Headers) (resend : Bool) (last : Option String)
      (r : HttpResponse) (rest : List HttpResponse) (o : JSONObject),
      r.status = "400 Bad Request" → parse r.body = .ok o →
      findArray o "errors" = none →
      doHttpGet parse getToken url headers resend last (r :: rest)
        = (.failure "Errors not found in bad request response", [.httpGet url headers]))
    ∧ (∀ (parse : String → Except String JSONObject)
      (getToken : String → String → Except String Token)
      (url : URL) (headers : Option Headers) (resend : Bool) (last : Option String)
      (r : HttpResponse) (rest : List HttpResponse) (o : JSONObject)
      (errs : List JSONValue),
      r.status = "400 Bad Request" → parse r.body = .ok o →
      findArray o "errors" = some errs →
      (∀ v ∈ errs, isJSONObjectValue v = true) →
      doHttpGet parse getToken url headers resend last (r :: rest)
        = (.failure ("Received Bad request, errors: ["
            ++ joinMessages (errs.filterMap messageOf) ++ "]"),
          [.httpGet url headers])) := by
  refine ⟨?_, ?_, ?_⟩
  · intro parse getToken url headers resend last r rest e h400 hp
    simp [doHttpGet, h400, bad400, hp]
  · intro parse getToken url headers resend last r rest o h400 hp herr
    simp [doHttpGet, h400, bad400, hp, herr]
  · intro parse getToken url headers resend last r rest o errs h400 hp herr hobj
    simp [doHttpGet, h400, bad400, hp, herr, collectMessages_all_objects errs hobj]

/-- C5 witness: the three amended behaviors at concrete 400 responses —
an unparsable body, a body without `errors`, and the spec's scenario S4
body whose two messages are joined with `", "`; each leaves a single-GET
trace even with retry enabled. -/
theorem claim5_bad_request_amended_witness :
    doHttpGet parseFixture tokenFixture manifestFixtureURL none true none
      [⟨"400 Bad Request", [], "NOT_JSON"⟩]
      = (.failure ("Failed to parse bad request response JSON: " ++ "Syntax error"),
        [.httpGet manifestFixtureURL none])
    ∧ doHttpGet parseFixture tokenFixture manifestFixtureURL none true none
      [⟨"400 Bad Request", [], "MANIFEST_OK"⟩]
      = (.failure "Errors not found in bad request response",
        [.httpGet manifestFixtureURL none])
    ∧ doHttpGet parseFixture tokenFixture manifestFixtureURL none true none
      [⟨"400 Bad Request", [], "ERRORS_TWO"⟩]
      = (.failure ("Received Bad request, errors: ["
          ++ joinMessages (([JSONValue.obj [("message", .str "manifest unknown")],
              JSONValue.obj [("message", .str "repo not found")]] :
            List JSONValue).filterMap messageOf) ++ "]"),
        [.httpGet manifestFixtureURL none]) := by
  refine ⟨claim5_bad_request_amended.1 parseFixture tokenFixture manifestFixtureURL
      none true none ⟨"400 Bad Request", [], "NOT_JSON"⟩ [] "Syntax error"
      (by decide) (by rfl),
    claim5_bad_request_amended.2.1 parseFixture tokenFixture manifestFixtureURL
      none true none ⟨"400 Bad Request", [], "MANIFEST_OK"⟩ []
      [("name", .str "library/alpine"),
        ("fsLayers", .arr [.obj [("blobSum", .str "sha256:layer1")]]),
        ("history", .arr [.obj [("v1Compatibility", .str "V1_OK")]])]
      (by decide) (by rfl) (by rfl),
    claim5_bad_request_amended.2.2 parseFixture tokenFixture manifestFixtureURL
      none true none ⟨"400 Bad Request", [], "ERRORS_TWO"⟩ []
      [("errors", .arr [.obj [("message", .str "manifest unknown")],
        .obj [("message", .str "repo not found")]])]
      [.obj [("message", .str "manifest unknown")],
        .obj [("message", .str "repo not found")]]
      (by decide) (by rfl) (by rfl) (by decide)⟩

/-- C6: for every 401 response with retry allowed (and no immediate loop),
the `WWW-Authenticate` challenge is parsed; a parse failure, or parsed
attributes lacking `service` or `scope`, fail the call at once with an
auth error, issuing neither a token request nor a retry (the trace stays
one GET); otherwise the Token Manager is called with the verbatim
`service` and `scope` values and, on success, the request is re-sent
exactly once with header `Authorization: Bearer <token.raw>` and with
`last_status` set to the 401 status. -/
theorem claim6_auth_dance :
    ∀ (parse : String → Except String JSONObject)
      (getToken : String → String → Except String Token)
      (url : URL) (headers : Option Headers) (last : Option String)
      (r : HttpResponse) (rest : List HttpResponse),
    r.status = "401 Unauthorized" → last ≠ some r.status →
    (∀ e : String, getAuthenticationAttributes r = .error e →
      doHttpGet parse getToken url headers true last (r :: rest)
        = (.failure ("Failed to get authentication attributes: " ++ e),
          [.httpGet url headers]))
    ∧ (∀ attrs : Headers, getAuthenticationAttributes r = .ok attrs →
      headerLookup attrs "service" = none →
      doHttpGet parse getToken url headers true last (r :: rest)
        = (.failure "Failed to find authentication attribute \"service\" in responsefrom authorization server",
          [.httpGet url headers]))
    ∧ (∀ (attrs : Headers) (service : String),
      getAuthenticationAttributes r = .ok attrs →
      headerLookup attrs "service" = some service →
      headerLookup attrs "scope" = none →
      doHttpGet parse getToken url headers true last (r :: rest)
        = (.failure "Failed to find authentication attribute \"scope\" in responsefrom authorization server",
          [.httpGet url headers]))
    ∧ (∀ (attrs : Headers) (service scope : String) (token : Token),
      getAuthenticationAttributes r = .ok attrs →
      headerLookup attrs "service" = some service →
      headerLookup attrs "scope" = some scope →
      getToken service scope = .ok token →
      doHttpGet parse getToken url headers true last (r :: rest)
        = ((doHttpGet parse getToken url
              (some [("Authorization", "Bearer " ++ token.raw)]) true
              (some r.status) rest).1,
          .httpGet url headers :: .tokenRequest service scope ::
            (doHttpGet parse getToken url
              (some [("Authorization", "Bearer " ++ token.raw)]) true
              (some r.status) rest).2)) := by
  intro parse getToken url headers last r rest h401 hloop
  have hl : last ≠ some "401 Unauthorized" := by
    rw [← h401]
    exact hloop
  refine ⟨?_, ?_, ?_, ?_⟩
  · intro e hA
    simp [doHttpGet, h401, hl, hA]
  · intro attrs hA hsv
    simp [doHttpGet, h401, hl, hA, hsv]
  · intro attrs service hA hsv hsc
    simp [doHttpGet, h401, hl, hA, hsv, hsc]
  · intro attrs service scope token hA hsv hsc htk
    simp [doHttpGet, h401, hl, hA, hsv, hsc, htk]

/-- C6 witness: the four 401 behaviors at concrete responses — a 401
without a challenge, challenges missing `service` or `scope`, and the
spec's scenario S2 dance ending in the 200 manifest response after exactly
one authenticated retry with `Authorization: Bearer T`. -/
theorem claim6_auth_dance_witness :
    doHttpGet parseFixture tokenFixture manifestFixtureURL none true none
      [⟨"401 Unauthorized", [], ""⟩]
      = (.failure ("Failed to get authentication attributes: "
          ++ "Failed to find WWW-Authenticate header value"),
        [.httpGet manifestFixtureURL none])
    ∧ doHttpGet parseFixture tokenFixture manifestFixtureURL none true none
      [⟨"401 Unauthorized",
        [("WWW-Authenticate", "Bearer realm=\"R\",scope=\"SCP\"")], ""⟩]
      = (.failure "Failed to find authentication attribute \"service\" in responsefrom authorization server",
        [.httpGet manifestFixtureURL none])
    ∧ doHttpGet parseFixture tokenFixture manifestFixtureURL none true none
      [⟨"401 Unauthorized",
        [("WWW-Authenticate", "Bearer realm=\"R\",service=\"SVC\"")], ""⟩]
      = (.failure "Failed to find authentication attribute \"scope\" in responsefrom authorization server",
        [.httpGet manifestFixtureURL none])
    ∧ doHttpGet parseFixture tokenFixture manifestFixtureURL none true none
      [resp401, respS1]
      = (.ok respS1,
        [.httpGet manifestFixtureURL none, .tokenRequest "SVC" "SCP",
          .httpGet manifestFixtureURL (some [("Authorization", "Bearer " ++ "T")])]) := by
  refine ⟨?_, ?_, ?_, ?_⟩
  · exact (claim6_auth_dance parseFixture tokenFixture manifestFixtureURL none none
      ⟨"401 Unauthorized", [], ""⟩ [] (by decide) (by decide)).1
      "Failed to find WWW-Authenticate header value" (by rfl)
  · exact (claim6_auth_dance parseFixture tokenFixture manifestFixtureURL none none
      ⟨"401 Unauthorized", [("WWW-Authenticate", "Bearer realm=\"R\",scope=\"SCP\"")],
        ""⟩ [] (by decide) (by decide)).2.1
      [("realm", "R"), ("scope", "SCP")] (by rfl) (by decide)
  · exact (claim6_auth_dance parseFixture tokenFixture manifestFixtureURL none none
      ⟨"401 Unauthorized", [("WWW-Authenticate", "Bearer realm=\"R\",service=\"SVC\"")],
        ""⟩ [] (by decide) (by decide)).2.2.1
      [("realm", "R"), ("service", "SVC")] "SVC" (by rfl) (by decide) (by decide)
  · have h := (claim6_auth_dance parseFixture tokenFixture manifestFixtureURL none none
      resp401 [respS1] (by decide) (by decide)).2.2.2
      [("realm", "R"), ("service", "SVC"), ("scope", "SCP")] "SVC" "SCP" ⟨"T"⟩
      (by rfl) (by decide) (by decide) (by rfl)
    exact h.trans (by decide)

/-- `RegistryClientProcess::getManifest` (lines 455-593) over the scripted
server: validate path and tag (no spaces), build
`v2/<path>/manifests/<tag>` on the process's registry server URL, drive
the GET with retry enabled and no previous status, and decode a 200
response with the manifest lambda. -/
def getManifestCall (parse : String → Except String JSONObject)
    (getToken : String → String → Except String Token)
    (server : List HttpResponse) (registryServer : URL)
    (path : String) (tag : Option String) : CallResult Manifest × List Event :=
  if strContains path " " then
    (.failure ("Invalid repository path: " ++ path), [])
  else
    let repoTag := tag.getD "latest"
    if strContains repoTag " " then
      (.failure ("Invalid repository tag: " ++ repoTag), [])
    else
      let manifestURL : URL :=
        { registryServer with path := "v2/" ++ path ++ "/manifests/" ++ repoTag }
      match doHttpGet parse getToken manifestURL none true none server with
      | (.ok r, evs) =>
        match manifestFromResponse parse r with
        | .error e =>
          (.failure ("Failed to parse manifest response: " ++ e), evs)
        | .ok m => (.ok m, evs)
      | (.failure msg, evs) => (.failure msg, evs)
      | (.abort msg, evs) => (.abort msg, evs)
      | (.noResponse, evs) => (.noResponse, evs)

/-- Modelled from the spec: the parent directory of the target file
(stout `Path::dirname`, not among the repository's files) — everything
before the last `/`, or `.` when the path has no `/`. -/
def dirname (p : String) : String :=
  let afterComp := p.data.reverse.dropWhile (fun c => c ≠ '/')
  match afterComp with
  | [] => "."
  | _ :: parent => String.mk parent.reverse

/-- `RegistryClientProcess::getBlob` (lines 596-655) over the scripted
server.  The source runs the `prepare` lambda — creating the parent
directory of `filePath` — *before* validating the repository path; the
attempt is logged as a `mkdirCall` event and its outcome is the external
`mkdirResult` collaborator's.  On a 200, `saveBlob` opens the target
(outcome `openResult`), writes the body and returns its byte length. -/
def getBlobCall (parse : String → Except String JSONObject)
    (getToken : String → String → Except String Token)
    (mkdirResult : String → Except String Unit) (openResult : Except String Unit)
    (server : List HttpResponse) (registryServer : URL)
    (path : String) (digest : Option String) (filePath : String) :
    CallResult Nat × List Event :=
  let dirName := dirname filePath
  let prepareEv : Event := .mkdirCall dirName
  match mkdirResult dirName with
  | .error e =>
    (.failure ("Failed to create directory to download blob: " ++ e), [prepareEv])
  | .ok _ =>
    if strContains path " " then
      (.failure ("Invalid repository path: " ++ path), [prepareEv])
    else
      let blobURL : URL :=
        { registryServer with path := "v2/" ++ path ++ "/blobs/" ++ digest.getD "" }
      match doHttpGet parse getToken blobURL none true none server with
      | (.ok r, evs) =>
        match openResult with
        | .error e =>
          (.failure ("Failed to open file '" ++ filePath ++ "': " ++ e),
            prepareEv :: evs)
        | .ok _ =>
          (.ok r.body.length, prepareEv :: (evs ++ [.fileWrite filePath r.body]))
      | (.failure msg, evs) => (.failure msg, prepareEv :: evs)
      | (.abort msg, evs) => (.abort msg, prepareEv :: evs)
      | (.noResponse, evs) => (.noResponse, prepareEv :: evs)

/-- The client's credentials; consumed only by the Token Manager
(registry_client.hpp). -/
structure Credentials where
  username : Option String
  password : Option String
  deriving DecidableEq, Repr

/-- Modelled from the spec: `TokenManager::create(authServer)` builds the
Token Manager bound to the authorization endpoint URL it is given
(token_manager is not among the repository's files; spec §4.D). -/
structure TokenManagerState where
  authURL : URL
  deriving DecidableEq, Repr

def tokenManagerCreate (authServer : URL) : TokenManagerState := ⟨authServer⟩

/-- The state `RegistryClientProcess` is constructed with (lines 202-208):
its registry server URL, its token manager, its credentials. -/
structure RegistryClientProcessState where
  registryServer : URL
  tokenManager : TokenManagerState
  credentials : Option Credentials
  deriving DecidableEq, Repr

/-- `RegistryClientProcess::create(registryServer, authServer, creds)`
(lines 187-199): builds the token manager from its `authServer` parameter
and keeps its `registryServer` parameter as the request target. -/
def registryClientProcessCreate (registryServer : URL) (authServer : URL)
    (creds : Option Credentials) : RegistryClientProcessState :=
  { registryServer := registryServer,
    tokenManager := tokenManagerCreate authServer,
    credentials := creds }

/-- The facade's own fields (registry_client.hpp), set by the constructor
`RegistryClient::RegistryClient(registryServer, authServer, creds,
process)` (lines 129-140). -/
structure RegistryClientState where
  registryServer : URL
  authServer : URL
  credentials : Option Credentials
  process : RegistryClientProcessState
  deriving DecidableEq, Repr

def registryClientCtor (registryServer : URL) (authServer : URL)
    (creds : Option Credentials) (process : RegistryClientProcessState) :
    RegistryClientState :=
  { registryServer := registryServer,
    authServer := authServer,
    credentials := creds,
    process := process }

/-- `RegistryClient::create(registryServer, authServer, creds)` (lines
112-126), argument order exactly as in the source: it calls
`RegistryClientProcess::create(authServer, registryServer, creds)` and
`RegistryClient(authServer, registryServer, creds, process)`. -/
def registryClientCreate (registryServer : URL) (authServer : URL)
    (creds : Option Credentials) : RegistryClientState :=
  let process := registryClientProcessCreate authServer registryServer creds
  registryClientCtor authServer registryServer creds process

/-- `RegistryClient::getManifest` dispatches to the process actor with its
state (lines 150-163). -/
def registryClientGetManifest (parse : String → Except String JSONObject)
    (getToken : String → String → Except String Token)
    (server : List HttpResponse) (client : RegistryClientState)
    (path : String) (tag : Option String) : CallResult Manifest × List Event :=
  getManifestCall parse getToken server client.process.registryServer path tag

/-- `RegistryClient::getBlob` dispatches to the process actor with its
state (lines 166-184). -/
def registryClientGetBlob (parse : String → Except String JSONObject)
    (getToken : String → String → Except String Token)
    (mkdirResult : String → Except String Unit) (openResult : Except String Unit)
    (server : List HttpResponse) (client : RegistryClientState)
    (path : String) (digest : Option String) (filePath : String) :
    CallResult Nat × List Event :=
  getBlobCall parse getToken mkdirResult openResult server
    client.process.registryServer path digest filePath

/-- A concrete registry endpoint URL. -/
def urlRegistryExample : URL := ⟨"https", "registry.example", some 443, ""⟩

/-- A concrete authorization endpoint URL. -/
def urlAuthExample : URL := ⟨"https", "auth.example", some 443, ""⟩

/-- C1: the claim says manifest and blob requests target `registry_url`
and the Token Manager is built from `auth_url`, with the two URLs never
interchanged in the construction chain.  The source interchanges them:
`RegistryClient::create(registryServer, authServer, creds)` calls
`RegistryClientProcess::create(authServer, registryServer, creds)` — the
parameters land in each other's positions — so the constructed process
keeps `auth_url` as its registry server (and every `v2/...` GET goes to
the authorization endpoint) while the Token Manager is built from
`registry_url`.  Evaluated here at distinct concrete URLs. -/
theorem claim1_url_swap_evidence :
    (registryClientCreate urlRegistryExample urlAuthExample none).process.registryServer
      = urlAuthExample
    ∧ (registryClientCreate urlRegistryExample urlAuthExample none).process.tokenManager.authURL
      = urlRegistryExample
    ∧ (registryClientGetManifest parseFixture tokenFixture []
        (registryClientCreate urlRegistryExample urlAuthExample none)
        "library/alpine" none).2
      = [.httpGet ⟨"https", "auth.example", some 443,
          "v2/library/alpine/manifests/latest"⟩ none]
    ∧ (registryClientGetBlob parseFixture tokenFixture (fun _ => .ok ()) (.ok ()) []
        (registryClientCreate urlRegistryExample urlAuthExample none)
        "library/alpine" (some "sha256:layer1") "/tmp/out").2
      = [.mkdirCall "/tmp",
        .httpGet ⟨"https", "auth.example", some 443,
          "v2/library/alpine/blobs/sha256:layer1"⟩ none] := by
  refine ⟨by decide, by decide, by decide, by decide⟩

/-- C2 counterexample: a 200 manifest response whose JSON carries empty
`name`, `blobSum` and embedded `id` strings is decoded and returned as a
manifest with empty `name`, `blob_sum` and `layer_id` — the source never
checks non-emptiness, so the claimed invariant fails. -/
theorem claim2_counterexample :
    (getManifestCall parseFixture tokenFixture
      [⟨"200 OK", [("Docker-Content-Digest", "sha256:abc")], "MANIFEST_EMPTYFIELDS"⟩]
      urlRegistryExample "library/alpine" none).1
      = .ok ⟨"", "sha256:abc", [⟨"", ""⟩]⟩
    ∧ (Manifest.name ⟨"", "sha256:abc", [⟨"", ""⟩]⟩ = ""
      ∧ FileSystemLayerInfo.blobSum ⟨"", ""⟩ = ""
      ∧ FileSystemLayerInfo.layerId ⟨"", ""⟩ = "") := by
  refine ⟨by rfl, by decide, by decide, by decide⟩

/-- C2 (amended): every manifest returned by `get_manifest` comes from a
200 response of the driver, and its `digest` field equals the value of
that response's `Docker-Content-Digest` header; the `name` and per-layer
`blob_sum`/`layer_id` fields are taken verbatim from the JSON and may be
empty (see the counterexample). -/
theorem claim2_manifest_digest_amended :
    ∀ (parse : String → Except String JSONObject)
      (getToken : String → String → Except String Token)
      (server : List HttpResponse) (reg : URL) (path : String) (tag : Option String)
      (m : Manifest) (evs : List Event),
    getManifestCall parse getToken server reg path tag = (.ok m, evs) →
    ∃ r : HttpResponse,
      doHttpGet parse getToken
        { reg with path := "v2/" ++ path ++ "/manifests/" ++ tag.getD "latest" }
        none true none server = (.ok r, evs)
      ∧ headerLookup r.headers "Docker-Content-Digest" = some m.digest := by
  intro parse getToken server reg path tag m evs h
  simp only [getManifestCall] at h
  cases hp : strContains path " " with
  | true => simp [hp] at h
  | false =>
    rw [hp] at h
    simp only [Bool.false_eq_true, if_false] at h
    cases ht : strContains (tag.getD "latest") " " with
    | true => rw [ht] at h; simp at h
    | false =>
      rw [ht] at h
      simp only [Bool.false_eq_true, if_false] at h
      rcases hdo : doHttpGet parse getToken
          { reg with path := "v2/" ++ path ++ "/manifests/" ++ tag.getD "latest" }
          none true none server with ⟨res, tr⟩
      rw [hdo] at h
      cases res with
      | ok r =>
        cases hm : manifestFromResponse parse r with
        | error e => simp [hm] at h
        | ok m' =>
          simp only [hm] at h
          have h1 : m' = m := by
            have := congrArg Prod.fst h
            simpa using this
          have h2 : tr = evs := by
            have := congrArg Prod.snd h
            simpa using this
          subst h1
          subst h2
          exact ⟨r, rfl, manifestFromResponse_digest parse r m' hm⟩
      | failure msg => simp at h
      | abort msg => simp at h
      | noResponse => simp at h

/-- C2 witness: the amended property at the spec's scenario S1 — the
returned digest `sha256:abc` is the `Docker-Content-Digest` value of the
one 200 response the driver delivered. -/
theorem claim2_manifest_digest_amended_witness :
    ∃ r : HttpResponse,
      doHttpGet parseFixture tokenFixture
        { urlRegistryExample with path := "v2/" ++ "library/alpine" ++ "/manifests/"
          ++ (none : Option String).getD "latest" }
        none true none [respS1] = (.ok r,
          [.httpGet ⟨"https", "registry.example", some 443,
            "v2/library/alpine/manifests/latest"⟩ none])
      ∧ headerLookup r.headers "Docker-Content-Digest" = some manifestS1.digest := by
  exact claim2_manifest_digest_amended parseFixture tokenFixture [respS1]
    urlRegistryExample "library/alpine" none manifestS1
    [.httpGet ⟨"https", "registry.example", some 443,
      "v2/library/alpine/manifests/latest"⟩ none] (by rfl)

/-- C9 counterexample: `get_blob` with the space-containing repository
path `a b` does fail with `InvalidPath`, but only after attempting to
create the parent directory of the target file — the trace already holds
a `mkdir` of `/tmp/x` — so the call does not leave the filesystem
unchanged and the path is not validated before the directory creation. -/
theorem claim9_counterexample :
    getBlobCall parseFixture tokenFixture (fun _ => .ok ()) (.ok ()) []
      urlRegistryExample "a b" (some "sha256:x") "/tmp/x/blob"
      = (.failure ("Invalid repository path: " ++ "a b"), [.mkdirCall "/tmp/x"])
    ∧ ([Event.mkdirCall "/tmp/x"] ≠ ([] : List Event)) := by
  refine ⟨by decide, by decide⟩

/-- C9 (amended): `get_manifest` validates `path` and then `tag` before
anything else — a space in either fails the call with
`InvalidPath`/`InvalidTag` and an empty trace (no HTTP request, no
filesystem effect); `get_blob` with a space in `path` fails with
`InvalidPath` before any HTTP request, but only after the parent
directory of `file_path` has been created: its trace is exactly the
`mkdir` of that directory. -/
theorem claim9_space_validation_amended :
    (∀ (parse : String → Except String JSONObject)
      (getToken : String → String → Except String Token)
      (server : List HttpResponse) (reg : URL) (path : String) (tag : Option String),
      strContains path " " = true →
      getManifestCall parse getToken server reg path tag
        = (.failure ("Invalid repository path: " ++ path), []))
    ∧ (∀ (parse : String → Except String JSONObject)
      (getToken : String → String → Except String Token)
      (server : List HttpResponse) (reg : URL) (path : String) (tag : Option String),
      strContains path " " = false → strContains (tag.getD "latest") " " = true →
      getManifestCall parse getToken server reg path tag
        = (.failure ("Invalid repository tag: " ++ tag.getD "latest"), []))
    ∧ (∀ (parse : String → Except String JSONObject)
      (getToken : String → String → Except String Token)
      (mkdirResult : String → Except String Unit) (openResult : Except String Unit)
      (server : List HttpResponse) (reg : URL) (path : String)
      (digest : Option String) (filePath : String),
      mkdirResult (dirname filePath) = .ok () → strContains path " " = true →
      getBlobCall parse getToken mkdirResult openResult server reg path digest filePath
        = (.failure ("Invalid repository path: " ++ path),
          [.mkdirCall (dirname filePath)])) := by
  refine ⟨?_, ?_, ?_⟩
  · intro parse getToken server reg path tag hp
    simp [getManifestCall, hp]
  · intro parse getToken server reg path tag hp ht
    simp [getManifestCall, hp, ht]
  · intro parse getToken mkdirResult openResult server reg path digest filePath hmk hp
    simp [getBlobCall, hmk, hp]

/-- C9 witness: the amended behaviors at the spec's scenario S6 path
`lib rary/alpine`, a spaced tag, and the blob call from the
counterexample input. -/
theorem claim9_space_validation_amended_witness :
    getManifestCall parseFixture tokenFixture [] urlRegistryExample
      "lib rary/alpine" none
      = (.failure ("Invalid repository path: " ++ "lib rary/alpine"), [])
    ∧ getManifestCall parseFixture tokenFixture [] urlRegistryExample
      "library/alpine" (some "la test")
      = (.failure ("Invalid repository tag: " ++ "la test"), [])
    ∧ getBlobCall parseFixture tokenFixture (fun _ => .ok ()) (.ok ()) []
      urlRegistryExample "a b" (some "sha256:x") "/tmp/x/blob"
      = (.failure ("Invalid repository path: " ++ "a b"), [.mkdirCall "/tmp/x"]) := by
  refine ⟨claim9_space_validation_amended.1 parseFixture tokenFixture []
      urlRegistryExample "lib rary/alpine" none (by decide),
    ?_, ?_⟩
  · have h := claim9_space_validation_amended.2.1 parseFixture tokenFixture []
      urlRegistryExample "library/alpine" (some "la test") (by decide) (by decide)
    exact h
  · have h := claim9_space_validation_amended.2.2 parseFixture tokenFixture
      (fun _ => .ok ()) (.ok ()) [] urlRegistryExample "a b" (some "sha256:x")
      "/tmp/x/blob" (by rfl) (by decide)
    exact h

end Docker
